import Mathlib

/-!
Verification development for the streaming workflow adapter of the
company-research-assistant repository.

The Python source of record is `src/product_research/deep_research_service.py`
(class `DeepResearchService`) together with the event schema in
`src/product_research/models/research_models.py`.  This file gives a shallow
embedding of that code in Lean: strings are Lean `String`s (Python `len` and
slicing count characters, as Lean's `String.length`/`List.take` on `toList`
do), machine integers do not occur, clock readings are natural numbers of
seconds, and Python exceptions are modelled by `Option`/explicit variants as
described at each definition.

Modelling conventions used throughout:
* `json.loads` is modelled by `jsonLoads`, a fuel-based JSON parser over the
  character list of the input; the fuel is sized from the input length and is
  always sufficient, so the parser is total and deterministic.
* `re.search`/`re.findall` uses in the source are small fixed patterns; each
  is modelled by a dedicated character-list scanner that tries the pattern at
  every position from the left, exactly as the regex engine does.
* Wall-clock time: the orchestrator reads `time.time()` several times while
  handling one engine chunk.  The model treats node processing as
  instantaneous: every clock read made while handling the i-th chunk returns
  that chunk's arrival time `times i`, and the reads made before the loop
  return the start time `t0`.
* `datetime.utcnow().isoformat()` timestamps are not modelled (no claim
  concerns them); every event's `timestamp` field is `""`.
-/

namespace DeepResearch

/-- JSON values as produced by `json.loads` on the embedded blocks.  Numbers
are kept as their validated lexeme (the claims never do arithmetic on them),
strings are kept decoded. -/
inductive Json where
  | null : Json
  | bool (b : Bool) : Json
  | num (lexeme : String) : Json
  | str (s : String) : Json
  | arr (elems : List Json) : Json
  | obj (fields : List (String × Json)) : Json
deriving Repr

/-- JSON whitespace accepted between tokens by `json.loads`. -/
def jsonWs (c : Char) : Bool :=
  c == ' ' || c == '\t' || c == '\n' || c == '\r'

/-- ASCII decimal digit test (codepoints 48-57). -/
def isDigitC (c : Char) : Bool := 48 ≤ c.toNat && c.toNat ≤ 57

/-- ASCII hex digit value, if any (codepoint arithmetic: digits are
48-57, lowercase a-f are 97-102, uppercase A-F are 65-70). -/
def hexVal (c : Char) : Option Nat :=
  let n := c.toNat
  if 48 ≤ n && n ≤ 57 then some (n - 48)
  else if 97 ≤ n && n ≤ 102 then some (n - 87)
  else if 65 ≤ n && n ≤ 70 then some (n - 55)
  else none

/-- Parse the body of a JSON string literal (the opening quote already
consumed), returning the decoded characters and the remaining input.
Control characters below U+0020 are rejected, as `json.loads` does in its
default strict mode. -/
def parseJStr : List Char → Option (String × List Char)
  | [] => none
  | c :: cs =>
    if c == '"' then some ("", cs)
    else if c == '\\' then
      match cs with
      | [] => none
      | e :: cs2 =>
        let simpleEsc : Option Char :=
          if e == '"' then some '"'
          else if e == '\\' then some '\\'
          else if e == '/' then some '/'
          else if e == 'b' then some (Char.ofNat 8)
          else if e == 'f' then some (Char.ofNat 12)
          else if e == 'n' then some '\n'
          else if e == 'r' then some '\r'
          else if e == 't' then some '\t'
          else none
        match simpleEsc with
        | some d =>
          match parseJStr cs2 with
          | some (s, rest) => some (⟨d :: s.data⟩, rest)
          | none => none
        | none =>
          if e == 'u' then
            match cs2 with
            | a :: b :: c3 :: d :: cs3 =>
              match hexVal a, hexVal b, hexVal c3, hexVal d with
              | some ha, some hb, some hc, some hd =>
                let n := ((ha * 16 + hb) * 16 + hc) * 16 + hd
                match parseJStr cs3 with
                | some (s, rest) => some (⟨Char.ofNat n :: s.data⟩, rest)
                | none => none
              | _, _, _, _ => none
            | _ => none
          else none
    else if c.toNat < 32 then none
    else
      match parseJStr cs with
      | some (s, rest) => some (⟨c :: s.data⟩, rest)
      | none => none

/-- Parse a JSON number lexeme `-?(0|[1-9][0-9]*)(\.[0-9]+)?([eE][+-]?[0-9]+)?`
starting at the head of the input; returns the lexeme and the rest. -/
def parseJNum (cs : List Char) : Option (String × List Char) :=
  let (sign, cs1) := match cs with
    | '-' :: r => ([('-' : Char)], r)
    | r => ([], r)
  match cs1 with
  | [] => none
  | c :: _ =>
    if ¬ isDigitC c then none
    else
      let intPart := cs1.takeWhile isDigitC
      let cs2 := cs1.drop intPart.length
      -- json rejects leading zeros on multi-digit integer parts
      if intPart.length > 1 && intPart.headD '0' == '0' then none
      else
        let (fracPart, cs3) :=
          match cs2 with
          | '.' :: r =>
            let ds := r.takeWhile isDigitC
            if ds.isEmpty then ([], cs2) else (('.' :: ds), r.drop ds.length)
          | _ => ([], cs2)
        -- a bare '.' with no digits is a parse error in json.loads
        let fracOk : Bool := match cs2 with
          | '.' :: r => !(r.takeWhile isDigitC).isEmpty
          | _ => true
        if !fracOk then none
        else
          let (expPart, cs4) :=
            match cs3 with
            | e :: r =>
              if e == 'e' || e == 'E' then
                let (sgn, r2) := match r with
                  | '+' :: r3 => ([('+' : Char)], r3)
                  | '-' :: r3 => ([('-' : Char)], r3)
                  | r3 => ([], r3)
                let ds := r2.takeWhile isDigitC
                if ds.isEmpty then (([] : List Char), cs3)
                else ((e :: sgn ++ ds), r2.drop ds.length)
              else ([], cs3)
            | [] => ([], cs3)
          let expOk : Bool := match cs3 with
            | e :: r =>
              if e == 'e' || e == 'E' then
                !((match r with
                    | '+' :: r3 => r3
                    | '-' :: r3 => r3
                    | r3 => r3).takeWhile isDigitC).isEmpty
              else true
            | [] => true
          if !expOk then none
          else some (⟨sign ++ intPart ++ fracPart ++ expPart⟩, cs4)

/-- Match an exact case-sensitive literal at the head of the input. -/
def matchLit : List Char → List Char → Option (List Char)
  | [], cs => some cs
  | _, [] => none
  | p :: ps, c :: cs => if p == c then matchLit ps cs else none

mutual

/-- Parse one JSON value (fuel-based; the fuel strictly decreases on every
recursive call, and `jsonLoads` supplies enough fuel for any input). -/
def parseJVal : Nat → List Char → Option (Json × List Char)
  | 0, _ => none
  | fuel + 1, cs =>
    match cs.dropWhile jsonWs with
    | [] => none
    | c :: rest =>
      if c == '{' then
        match rest.dropWhile jsonWs with
        | '}' :: r => some (Json.obj [], r)
        | r =>
          match parseJObjItems fuel r with
          | some (fs, r2) => some (Json.obj fs, r2)
          | none => none
      else if c == '[' then
        match rest.dropWhile jsonWs with
        | ']' :: r => some (Json.arr [], r)
        | r =>
          match parseJArrItems fuel r with
          | some (vs, r2) => some (Json.arr vs, r2)
          | none => none
      else if c == '"' then
        match parseJStr rest with
        | some (s, r) => some (Json.str s, r)
        | none => none
      else if c == 't' then
        (matchLit "rue".data rest).map (fun r => (Json.bool true, r))
      else if c == 'f' then
        (matchLit "alse".data rest).map (fun r => (Json.bool false, r))
      else if c == 'n' then
        (matchLit "ull".data rest).map (fun r => (Json.null, r))
      else if c == 'N' then
        -- json.loads accepts NaN by default
        (matchLit "aN".data rest).map (fun r => (Json.num "NaN", r))
      else if c == 'I' then
        (matchLit "nfinity".data rest).map (fun r => (Json.num "Infinity", r))
      else if c == '-' && (match rest with | 'I' :: _ => true | _ => false) then
        (matchLit "Infinity".data rest.tail).map (fun r => (Json.num "-Infinity", r))
      else
        match parseJNum (c :: rest) with
        | some (lex, r) => some (Json.num lex, r)
        | none => none

/-- Parse the items of a non-empty JSON array (the `[` and leading whitespace
already consumed). -/
def parseJArrItems : Nat → List Char → Option (List Json × List Char)
  | 0, _ => none
  | fuel + 1, cs =>
    match parseJVal fuel cs with
    | none => none
    | some (v, r) =>
      match r.dropWhile jsonWs with
      | ']' :: r2 => some ([v], r2)
      | ',' :: r2 =>
        match parseJArrItems fuel r2 with
        | some (vs, r3) => some (v :: vs, r3)
        | none => none
      | _ => none

/-- Parse the fields of a non-empty JSON object (the `{` and leading
whitespace already consumed). -/
def parseJObjItems : Nat → List Char → Option (List (String × Json) × List Char)
  | 0, _ => none
  | fuel + 1, cs =>
    match cs with
    | '"' :: r =>
      match parseJStr r with
      | none => none
      | some (k, r2) =>
        match r2.dropWhile jsonWs with
        | ':' :: r3 =>
          match parseJVal fuel r3 with
          | none => none
          | some (v, r4) =>
            match r4.dropWhile jsonWs with
            | '}' :: r5 => some ([(k, v)], r5)
            | ',' :: r5 =>
              match (parseJObjItems fuel (r5.dropWhile jsonWs)) with
              | some (fs, r6) => some ((k, v) :: fs, r6)
              | none => none
            | _ => none
        | _ => none
    | _ => none

end

/-- Wrapped arr-items parse used by `parseJVal`: on the `arr` branch the item
parser receives the input after the opening bracket with whitespace already
stripped; defined here only to fix the entry point, see `jsonLoads`. -/
def jsonLoads (s : String) : Option Json :=
  let cs := s.data
  match parseJVal (2 * cs.length + 8) cs with
  | some (v, rest) =>
    if (rest.dropWhile jsonWs).isEmpty then some v else none
  | none => none

/-! ## Pattern scanners

Models of the `re` uses in `_extract_json_blocks` and
`_extract_sources_from_text`.  Each scanner tries its pattern at every
position from the left (as `re.search`/`re.findall` do) and, for `findall`,
continues after the end of each match (non-overlapping matches). -/

/-- Python `\s` on the ASCII range (space, tab, newline, carriage return,
vertical tab, form feed). -/
def pyWs (c : Char) : Bool :=
  c == ' ' || c == '\t' || c == '\n' || c == '\r' ||
  c == Char.ofNat 11 || c == Char.ofNat 12

/-- Case-insensitive literal match (the `re.IGNORECASE` flag; the patterns
only contain ASCII letters, so ASCII case folding is exact). -/
def matchCI : List Char → List Char → Option (List Char)
  | [], cs => some cs
  | _, [] => none
  | p :: ps, c :: cs => if p.toLower == c.toLower then matchCI ps cs else none

/-- Characters up to and including the first `]`, or `none` if there is no
`]`: the lazy group `\[[\s\S]*?\]` of `_extract_json_blocks` stops at the
first closing bracket. -/
def upToRBracket : List Char → Option (List Char)
  | [] => none
  | c :: cs =>
    if c == ']' then some [c]
    else (upToRBracket cs).map (fun l => c :: l)

/-- Try the pattern `<header>\s*:\s*(\[[\s\S]*?\])` (with `re.IGNORECASE`)
anchored at the head of the input; returns the bracketed group on success. -/
def tryHeaderAt (header : List Char) (cs : List Char) : Option (List Char) :=
  match matchCI header cs with
  | none => none
  | some r1 =>
    match r1.dropWhile pyWs with
    | ':' :: r2 =>
      match r2.dropWhile pyWs with
      | '[' :: r3 => (upToRBracket r3).map (fun body => '[' :: body)
      | _ => none
    | _ => none

/-- Leftmost match of the header-array pattern (`re.search`): try the pattern
at each position, first success wins. -/
def findHeaderArray (header : List Char) : List Char → Option (List Char)
  | [] => none
  | c :: cs =>
    match tryHeaderAt header (c :: cs) with
    | some raw => some raw
    | none => findHeaderArray header cs

/-- One key of `_extract_json_blocks`: search for the header's bracketed
array, `json.loads` it, and keep it only when it parses as a JSON array
(`isinstance(parsed, list)`); any failure yields `[]` for this key (the
per-key `try/except ... continue` in the source).  The `.strip()` the source
applies to the group is the identity because the group always starts with
`[` and ends with `]`. -/
def extractKey (header : String) (text : String) : List Json :=
  match findHeaderArray header.data text.data with
  | some raw =>
    match jsonLoads ⟨raw⟩ with
    | some (Json.arr l) => l
    | _ => []
  | none => []

/-- Result record of `_extract_json_blocks`: the five fixed keys. -/
structure JsonBlocks where
  crawl_log : List Json
  first_party_pages : List Json
  search_queries : List Json
  social_profiles : List Json
  ecommerce_listings : List Json
deriving Repr

/-- Model of `DeepResearchService._extract_json_blocks`.  The source loops
over the five `(key, pattern)` pairs; each iteration searches and parses
independently and assigns only its own key, with a per-key `try/except`, so
the resulting dict is exactly this record of independent extractions.  The
outer `try/except` (returning `{}`) is unreachable for a total model: every
operation in the body is total. -/
def extract_json_blocks (text : String) : JsonBlocks :=
  { crawl_log := extractKey "CrawlLog JSON" text
    first_party_pages := extractKey "FirstPartyPages JSON" text
    search_queries := extractKey "SearchQueries JSON" text
    social_profiles := extractKey "SocialProfiles JSON" text
    ecommerce_listings := extractKey "EcommerceListings JSON" text }

/-! ### `_extract_sources_from_text` -/

/-- Characters allowed in the URL body by the source's URL pattern:
everything except whitespace and the excluded punctuation set, which is
(as character codes) angle brackets 60/62, double quote 34, curly braces
123/125, pipe 124, backslash 92, caret 94, backquote 96 and square
brackets 91/93. -/
def urlBodyChar (c : Char) : Bool :=
  !(pyWs c) && !([60, 62, 34, 123, 125, 124, 92, 94, 96, 91, 93].contains c.toNat)

/-- Try the URL pattern anchored at the head of the input
(case-sensitive: the source does not pass `re.IGNORECASE` for this one);
returns the match and the rest of the input after it. -/
def tryUrlAt (cs : List Char) : Option (List Char × List Char) :=
  match matchLit "http".data cs with
  | none => none
  | some r1 =>
    let (sPart, r2) : List Char × List Char :=
      match r1 with
      | 's' :: r => (['s'], r)
      | r => ([], r)
    match matchLit "://".data r2 with
    | none => none
    | some r3 =>
      let body := r3.takeWhile urlBodyChar
      if body.isEmpty then none
      else some ("http".data ++ sPart ++ "://".data ++ body, r3.drop body.length)

/-- Generic `re.findall` driver: try the pattern at every position; on a
match, record the group and continue after the match.  Fuel-based for
totality; every step strictly shortens the input, so fuel `length + 1` makes
the scan exact. -/
def scanAll (tryAt : List Char → Option (List Char × List Char)) :
    Nat → List Char → List (List Char)
  | 0, _ => []
  | _ + 1, [] => []
  | fuel + 1, c :: cs =>
    match tryAt (c :: cs) with
    | some (g, rest) => g :: scanAll tryAt fuel rest
    | none => scanAll tryAt fuel cs

/-- Label pattern of shape `<label>\s*([^\n]+)` (used for `SOURCE:`,
`Source:` and `reference:`, all with `re.IGNORECASE`): skip optional
whitespace after the label, then capture a maximal non-empty run of
non-newline characters.  (When only trailing whitespace follows the label the
regex backtracks into a single-whitespace group; that group strips to a
string of length ≤ 1 and is discarded by the length filter, so the model's
failure there is observationally equal.) -/
def tryLabelLineAt (label : List Char) (cs : List Char) :
    Option (List Char × List Char) :=
  match matchCI label cs with
  | none => none
  | some r1 =>
    let r2 := r1.dropWhile pyWs
    let g := r2.takeWhile (fun c => c != '\n')
    if g.isEmpty then none else some (g, r2.drop g.length)

/-- Label pattern of shape `<label>\s+([^\n,.]+)` (used for `according to`
and `cited from`, with `re.IGNORECASE`): at least one whitespace after the
label, then a maximal non-empty run of characters that are not newline,
comma or period.  (The same backtracking remark as for `tryLabelLineAt`
applies.) -/
def tryLabelPhraseAt (label : List Char) (cs : List Char) :
    Option (List Char × List Char) :=
  match matchCI label cs with
  | none => none
  | some r1 =>
    let ws := r1.takeWhile pyWs
    if ws.isEmpty then none
    else
      let r2 := r1.drop ws.length
      let g := r2.takeWhile (fun c => c != '\n' && c != ',' && c != '.')
      if g.isEmpty then none else some (g, r2.drop g.length)

/-- Domain characters of the pattern `[a-zA-Z0-9.-]`. -/
def domainChar (c : Char) : Bool :=
  c.isAlpha || isDigitC c || c == '.' || c == '-'

/-- ASCII letter test for the `[a-zA-Z]{2,}` tail. -/
def asciiAlpha (c : Char) : Bool := c.isAlpha

/-- Backtracking split for the group `([a-zA-Z0-9.-]+\.[a-zA-Z]{2,})`:
within the maximal run of domain characters, the greedy first `+` picks the
largest split point `k ≥ 1` such that the character at `k` is `.` and at
least two letters follow; the `{2,}` tail then takes the maximal letter run.
Returns `(k, tailLen)`. -/
def bestDomainSplit (run : List Char) : Option (Nat × Nat) :=
  (List.range run.length).reverse.findSome? fun k =>
    if k ≥ 1 && run.getD k ' ' == '.' then
      let tl := ((run.drop (k + 1)).takeWhile asciiAlpha).length
      if tl ≥ 2 then some (k, tl) else none
    else none

/-- Label pattern of shape `<label>\s+([a-zA-Z0-9.-]+\.[a-zA-Z]{2,})` (used
for `from` and `via`, with `re.IGNORECASE`). -/
def tryLabelDomainAt (label : List Char) (cs : List Char) :
    Option (List Char × List Char) :=
  match matchCI label cs with
  | none => none
  | some r1 =>
    let ws := r1.takeWhile pyWs
    if ws.isEmpty then none
    else
      let r2 := r1.drop ws.length
      let run := r2.takeWhile domainChar
      match bestDomainSplit run with
      | none => none
      | some (k, tl) =>
        some (run.take (k + 1 + tl), r2.drop (k + 1 + tl))

/-- Python `str.strip()` on the matched groups (ASCII whitespace on both
ends). -/
def pyStrip (s : String) : String :=
  ⟨(s.data.dropWhile pyWs).reverse.dropWhile pyWs |>.reverse⟩

/-- First-occurrence deduplication.  The source computes
`list(set(sources))`, whose order is unspecified (Python string hashing is
seeded); the model fixes first-occurrence order.  No settled claim depends on
the order, only on the resulting membership / emptiness. -/
def dedupeKeepFirst (seen : List String) : List String → List String
  | [] => []
  | s :: rest =>
    if seen.contains s then dedupeKeepFirst seen rest
    else s :: dedupeKeepFirst (s :: seen) rest

/-- Model of `DeepResearchService._extract_sources_from_text`: URL matches
(kept verbatim), then the seven label patterns in source order (each match
stripped and kept only when longer than 3 characters), deduplicated,
re-filtered to length > 3, capped at 5.  The outer `try/except` is
unreachable: every operation is total. -/
def extract_sources_from_text (text : String) : List String :=
  let cs := text.data
  let fuel := cs.length + 1
  let urls := (scanAll tryUrlAt fuel cs).map (fun l => (⟨l⟩ : String))
  let labelled (tryAt : List Char → Option (List Char × List Char)) :
      List String :=
    ((scanAll tryAt fuel cs).map (fun l => pyStrip ⟨l⟩)).filter
      (fun s => s.length > 3)
  let sources :=
    urls ++
    labelled (tryLabelLineAt "SOURCE:".data) ++
    labelled (tryLabelLineAt "Source:".data) ++
    labelled (tryLabelDomainAt "from".data) ++
    labelled (tryLabelPhraseAt "according to".data) ++
    labelled (tryLabelPhraseAt "cited from".data) ++
    labelled (tryLabelLineAt "reference:".data) ++
    labelled (tryLabelDomainAt "via".data)
  ((dedupeKeepFirst [] sources).filter (fun s => s.length > 3)).take 5

/-! ## Event model (`models/research_models.py`) -/

/-- The `ResearchStage` string enum. -/
inductive ResearchStage where
  | INITIALIZATION | CLARIFICATION | RESEARCH_BRIEF | RESEARCH_EXECUTION
  | RESEARCH_PLANNING | RESEARCH_QUERY | RESEARCH_FINDING | RESEARCH_ANALYSIS
  | RESEARCH_SYNTHESIS | TOOL_USAGE | THINKING | FINAL_REPORT
  | COMPLETED | ERROR
deriving DecidableEq, Repr

/-- Values stored in an event's `metadata` dict.  Python floats that are
always whole numbers of seconds in the model are stored as `n`; string lists
as `slist`; parsed JSON arrays as `jarr`; the nested `performance` dict as
`nested`. -/
inductive MetaVal where
  | s (v : String)
  | n (v : Nat)
  | b (v : Bool)
  | jarr (v : List Json)
  | slist (v : List String)
  | nested (v : List (String × MetaVal))
deriving Repr

/-- The `StreamingEvent` pydantic model.  `timestamp` is always `""` in the
model (see the file header). -/
structure StreamingEvent where
  type : String
  stage : Option ResearchStage
  content : String
  timestamp : String
  research_id : String
  model : String
  metadata : Option (List (String × MetaVal))
  error : Option String
deriving Repr

/-- Lookup of one metadata key on an event. -/
def metaLookup (e : StreamingEvent) (key : String) : Option MetaVal :=
  (e.metadata.getD []).lookup key

/-- Number of events of a given `type` in a list. -/
def countType (ty : String) (evs : List StreamingEvent) : Nat :=
  (evs.filter (fun e => e.type == ty)).length

/-! ## Node payloads

The engine hands `stream_research` mappings `node_name -> node_data`, where
`node_data` is duck-typed.  The model distinguishes the shapes the source
code inspects: `None`, a `dict`, an attribute-carrying object, and an
adversarial payload whose attribute access raises (Python permits this via
`__getattribute__`; `hasattr` only swallows `AttributeError`, so such a
payload makes `hasattr(node_data, '__dict__')` raise wherever the source
calls it outside a `try`). -/

/-- A tool-call record: a dict with `name` and `args` (`tool_call.get`). -/
structure ToolCall where
  name : String
  args : List (String × String)
deriving Repr

/-- A conversation message object.  `content` is `some s` when the message
has a string `content` attribute (non-string contents, which only occur for
multimodal messages, are not modelled); `tool_calls` is the `tool_calls`
attribute, `[]` when absent or empty (both are falsy in the source's
`hasattr(msg, 'tool_calls') and msg.tool_calls` test). -/
structure Msg where
  content : Option String := none
  tool_calls : List ToolCall := []
deriving Repr

/-- A value stored in a dict-shaped payload: a string (any value the source
passes through `str(...)`) or a list of message objects (only used for the
`supervisor_messages` key). -/
inductive DVal where
  | s (v : String)
  | msgs (v : List Msg)
deriving Repr

/-- Attribute record of an object-shaped payload.  Each field is `some _`
exactly when `hasattr` holds for it; string attributes model `str` values
(the `isinstance(..., str)` checks in the source then pass). -/
structure ObjData where
  messages : Option (List Msg) := none
  content : Option String := none
  response : Option String := none
  output : Option String := none
  result : Option String := none
  text : Option String := none
  notes : Option (List String) := none
  compressed_research : Option String := none
  research_brief : Option String := none
  final_report : Option String := none
  supervisor_messages : Option (List Msg) := none
deriving Repr

/-- One `node_data` payload. -/
inductive NodeData where
  | pynone
  | dict (entries : List (String × DVal))
  | obj (o : ObjData)
  | raising (msg : String)
deriving Repr

/-- Discriminator for adversarial payloads whose attribute access raises. -/
def isRaising : NodeData → Bool
  | .raising _ => true
  | _ => false

/-- Python truthiness of a payload (`if ... and node_data:`).  For `raising`
the `bool()` call itself raises; at its only use site (the
`research_supervisor` guard) that exception is swallowed by the per-node
handler after all prior events of the node were already yielded, which is
observationally the same as being falsy, so the model returns `false`. -/
def nodeTruthy : NodeData → Bool
  | .pynone => false
  | .dict entries => !entries.isEmpty
  | .obj _ => true
  | .raising _ => false

/-- Python `str(...)` of a dict value.  Only string values flow into the
claims; the `repr` of a message list is modelled opaquely. -/
def dvalStr : DVal → String
  | .s v => v
  | .msgs _ => "[messages]"

/-! ## Content extractor (`_extract_ai_messages`, `_extract_text_content`) -/

/-- Character-list prefix test (used to model Python string methods so
that every use reduces in the kernel). -/
def isPrefixOfL : List Char → List Char → Bool
  | [], _ => true
  | p :: ps, s =>
    match s with
    | [] => false
    | c :: cs => p == c && isPrefixOfL ps cs

def listHasInfix (pat : List Char) : List Char → Bool
  | [] => pat.isEmpty
  | c :: cs => isPrefixOfL pat (c :: cs) || listHasInfix pat cs

/-- Python `s.startswith(pre)`. -/
def pyStartsWith (s pre : String) : Bool := isPrefixOfL pre.data s.data

/-- Python `pat in s` (substring test). -/
def strContainsSub (s pat : String) : Bool := listHasInfix pat.data s.data

/-- Python `s.lower()` (ASCII case folding; the sniffed keywords are
ASCII). -/
def pyLower (s : String) : String := ⟨s.data.map Char.toLower⟩

/-- Python slice `s[:n]` (characters). -/
def pyTake (n : Nat) (s : String) : String := ⟨s.data.take n⟩

/-- The recurring `s[:limit] + "..." if len(s) > limit else s` idiom. -/
def pyTrunc (limit : Nat) (s : String) : String :=
  if s.length > limit then pyTake limit s ++ "..." else s

/-- The message-list pass of `_extract_ai_messages`: keep messages with a
`content` attribute whose text is longer than 20 characters and does not
start with `Human:`, truncated at 500 characters. -/
def aiMsgContents (ms : List Msg) : List String :=
  ms.filterMap fun m =>
    m.content.bind fun c =>
      if c.length > 20 && !(pyStartsWith c "Human:") then some (pyTrunc 500 c)
      else none

/-- The attribute pass of `_extract_ai_messages`: scan `content`,
`response`, `output`, `result`, `text` in order and keep the first attribute
that exists, is a non-empty string and is longer than 20 characters
(truncated at 500); the loop `break`s after the first hit. -/
def aiFirstAttr (o : ObjData) : List String :=
  (([o.content, o.response, o.output, o.result, o.text].filterMap
      (fun a => a.bind fun v =>
        if v.length > 20 then some (pyTrunc 500 v) else none)).head?).toList

/-- Model of `DeepResearchService._extract_ai_messages`.  Both passes run
unconditionally (the attribute pass is not guarded by the absence of a
message list); the result is capped at 5.  For `None` and `dict` payloads
every `hasattr` test is false; for a `raising` payload the first `hasattr`
raises and the function's own `try/except` returns `[]`. -/
def extract_ai_messages : NodeData → List String
  | .obj o =>
    let fromMsgs := match o.messages with
      | some ms => if ms.isEmpty then [] else aiMsgContents ms
      | none => []
    (fromMsgs ++ aiFirstAttr o).take 5
  | _ => []

/-- Opaque-but-executable stand-in for `str(node_data.__dict__)` in
`_extract_text_content`.  The exact Python dict repr is not modelled; no
claim inspects this string, only its length threshold behaviour matters and
even that is not relied on by any settled claim. -/
def objDictStr (o : ObjData) : String :=
  String.intercalate ", "
    ((if o.messages.isSome then ["messages"] else []) ++
     (o.content.map (fun v => "content: " ++ v)).toList ++
     (o.response.map (fun v => "response: " ++ v)).toList ++
     (o.output.map (fun v => "output: " ++ v)).toList ++
     (o.result.map (fun v => "result: " ++ v)).toList ++
     (o.text.map (fun v => "text: " ++ v)).toList ++
     (o.notes.map (fun ns => "notes: " ++ String.intercalate "; " ns)).toList ++
     (o.compressed_research.map (fun v => "compressed_research: " ++ v)).toList ++
     (o.research_brief.map (fun v => "research_brief: " ++ v)).toList ++
     (o.final_report.map (fun v => "final_report: " ++ v)).toList ++
     (if o.supervisor_messages.isSome then ["supervisor_messages"] else []))

/-- Model of `DeepResearchService._extract_text_content`: the most recent
message whose string content exceeds 50 characters, truncated at 300; else
the truncated `str(node_data.__dict__)` when longer than 100 characters;
else `""`.  `None`/`dict` payloads have neither attribute; a `raising`
payload's exception is swallowed by the function's own handler. -/
def extract_text_content : NodeData → String
  | .obj o =>
    let fromMsgs : Option String := match o.messages with
      | some ms =>
        if ms.isEmpty then none
        else
          (ms.reverse.filterMap fun m =>
            m.content.bind fun c => if c.length > 50 then some c else none).head?
      | none => none
    match fromMsgs with
    | some c => pyTrunc 300 c
    | none =>
      let ds := objDictStr o
      if ds.length > 100 then pyTake 200 ds ++ "..." else ""
  | _ => ""

/-! ## Node processor (`_generate_node_content`, `_process_workflow_node`)

The emoji prefixes in the source file are mojibake (the file stores a
double-encoded form); the string constants below reproduce the file's exact
characters via unicode escapes. -/

/-- Common constructor for `StreamingEvent` values: every event the service
yields carries the session's `research_id` and `model` and a timestamp
(modelled as `""`). -/
def mkEvent (ty : String) (stage : Option ResearchStage)
    (content rid mdl : String) (metadata : Option (List (String × MetaVal)))
    (err : Option String) : StreamingEvent :=
  { type := ty, stage := stage, content := content, timestamp := "",
    research_id := rid, model := mdl, metadata := metadata, error := err }

def litMagnifier : String := "\u00f0\u0178\u201d"
def litMemo : String := "\u00f0\u0178\u201c"
def litMicroscope : String := "\u00f0\u0178\u201d\u00ac"
def litGear : String := "\u00e2\u0161\u2122\u00ef\u00b8"
def litRobot : String := "\u00f0\u0178\u00a4\u2013"
def litClip : String := "\u00f0\u0178\u201c\u017d"
def litTimer : String := "\u00e2\u00b1\u00ef\u00b8"
def litGlobe : String := "\u00f0\u0178\u0152"
def litThought : String := "\u00f0\u0178\u2019\u00ad"
def litTarget : String := "\u00f0\u0178\u017d\u00af"
def litCheckMark : String := "\u00e2\u0153\u2026"
def litBrain : String := "\u00f0\u0178\u00a7\u00a0"
def litChart : String := "\u00f0\u0178\u201c\u0160"
def litThinkFace : String := "\u00f0\u0178\u00a4\u201d"

/-- Python `str.replace` then `str.title()` used for unknown node names:
`node_name.replace('_', ' ').title()` (a letter is uppercased when the
previous character is not a letter, lowercased otherwise; ASCII model). -/
def pyTitleAux : Bool → List Char → List Char
  | _, [] => []
  | prevAlpha, c :: cs =>
    let c2 := if c.isAlpha then (if prevAlpha then c.toLower else c.toUpper) else c
    c2 :: pyTitleAux c.isAlpha cs

def pyTitle (s : String) : String := ⟨pyTitleAux false s.data⟩

/-- Truthiness of an optional string attribute (`hasattr(...) and value`). -/
def truthyStr (a : Option String) : Option String :=
  a.bind fun v => if v.isEmpty then none else some v

/-- Truthiness of an optional list attribute. -/
def truthyList {α : Type} (a : Option (List α)) : Option (List α) :=
  a.bind fun l => if l.isEmpty then none else some l

/-- Model of `DeepResearchService._generate_node_content`.  The function's
own `try/except` returns the generic processing line on any exception; in
the model only a `raising` payload reaches it (the logging block evaluates
`hasattr(node_data, '__dict__')` before any branch, which raises for such a
payload). -/
def generate_node_content (node_name : String) (d : NodeData) (node_count : Nat) :
    String :=
  match d with
  | .raising _ => litGear ++ " Step " ++ toString node_count ++ ": Processing " ++ node_name
  | _ =>
    let base :=
      if node_name == "clarify_with_user" then
        let head := litMagnifier ++ " Step " ++ toString node_count ++
          ": Analyzing research scope and clarifying requirements"
        match d with
        | .pynone => head ++ "\nNo clarification needed - proceeding with original query"
        | _ =>
          let ams := extract_ai_messages d
          if !ams.isEmpty then
            head ++ "\n\nAI Clarification Process:" ++
              String.join ((ams.take 3).enum.map fun p =>
                "\nMessage " ++ toString (p.1 + 1) ++ ": " ++ p.2)
          else
            let fb := extract_text_content d
            if !fb.isEmpty then head ++ "\nAI Decision: " ++ fb else head
      else if node_name == "write_research_brief" then
        let head := litMemo ++ " Step " ++ toString node_count ++
          ": Creating comprehensive research brief and strategy"
        match d with
        | .dict entries =>
          match entries.lookup "research_brief" with
          | some v => head ++ "\n\nGenerated Research Brief:\n" ++ dvalStr v
          | none => head
        | _ =>
          let ams := extract_ai_messages d
          let s1 :=
            if !ams.isEmpty then
              "\n\nAI Research Brief Generation:" ++
                String.join ((ams.take 2).enum.map fun p =>
                  "\n" ++ litRobot ++ " Brief " ++ toString (p.1 + 1) ++ ": " ++ p.2)
            else ""
          let s2 := match d with
            | .obj o =>
              match truthyStr o.research_brief with
              | some v => "\nFinal Brief: " ++ pyTrunc 300 v
              | none => ""
            | _ => ""
          let s3 :=
            if ams.isEmpty then
              let fb := extract_text_content d
              if !fb.isEmpty then "\nResearch Strategy: " ++ fb else ""
            else ""
          head ++ s1 ++ s2 ++ s3
      else if node_name == "research_supervisor" then
        let head := litMicroscope ++ " Step " ++ toString node_count ++
          ": Conducting deep research using multiple tools and sources"
        let s1 := match d with
          | .obj o =>
            match truthyList o.notes with
            | some ns =>
              "\nFound " ++ toString ns.length ++ " research findings" ++
                String.join ((ns.take 3).enum.map fun p =>
                  if !p.2.isEmpty && p.2.length > 20 then
                    let sources := extract_sources_from_text p.2
                    "\n" ++ litMagnifier ++ " Finding " ++ toString (p.1 + 1) ++
                      ": " ++ pyTrunc 150 p.2 ++
                      (if !sources.isEmpty then
                        "\n" ++ litClip ++ " Sources: " ++
                          String.intercalate ", " (sources.take 2)
                      else "")
                  else "")
            | none => ""
          | _ => ""
        let s2 := match d with
          | .obj o =>
            match truthyStr o.compressed_research with
            | some v => "\nResearch Summary: " ++ pyTrunc 200 v
            | none => ""
          | _ => ""
        head ++ s1 ++ s2
      else if node_name == "final_report_generation" then
        let head := "Step " ++ toString node_count ++
          ": Generating final research report with findings and analysis"
        match d with
        | .dict entries =>
          match entries.lookup "final_report" with
          | some v =>
            let report := dvalStr v
            let sources := extract_sources_from_text report
            let report2 :=
              if !sources.isEmpty then
                report ++ "\n\n## Sources and References\n" ++
                  String.join (sources.enum.map fun p =>
                    toString (p.1 + 1) ++ ". " ++ p.2 ++ "\n")
              else report
            head ++ "\n\nFinal Report: " ++ report2
          | none => head
        | _ =>
          let ams := extract_ai_messages d
          let s1 :=
            if !ams.isEmpty then
              "\n\nAI Report Generation:" ++
                String.join ((ams.take 2).enum.map fun p =>
                  "\n" ++ litRobot ++ " Report " ++ toString (p.1 + 1) ++ ": " ++ p.2)
            else ""
          let s2 := match d with
            | .obj o =>
              match truthyStr o.final_report with
              | some v => "\nGenerated Report: " ++ pyTrunc 400 v
              | none => ""
            | _ => ""
          let s3 :=
            if ams.isEmpty then
              let fb := extract_text_content d
              if !fb.isEmpty then "\nFinal Report: " ++ fb else ""
            else ""
          head ++ s1 ++ s2 ++ s3
      else
        litGear ++ " Step " ++ toString node_count ++ ": Processing " ++
          pyTitle (node_name.replace "_" " ")
    -- trailing general message extraction when nothing was added
    if !(base.contains '\n') then
      match d with
      | .obj o =>
        match truthyList o.messages with
        | some ms =>
          match (ms.filterMap fun m =>
              m.content.bind fun c =>
                if c.length > 50 then some c else none).head? with
          | some c => base ++ "\n Content: " ++ pyTrunc 200 c
          | none => base
        | none => base
      | _ => base
    else base

/-- Map of known node names to stages; unknown names default to
`RESEARCH_EXECUTION`. -/
def stage_mapping (node_name : String) : ResearchStage :=
  if node_name == "clarify_with_user" then .CLARIFICATION
  else if node_name == "write_research_brief" then .RESEARCH_BRIEF
  else if node_name == "research_supervisor" then .RESEARCH_EXECUTION
  else if node_name == "final_report_generation" then .FINAL_REPORT
  else .RESEARCH_EXECUTION

/-- The `has_messages` metadata entry:
`hasattr(node_data, 'messages') if hasattr(node_data, '__dict__') else False`.
For a `raising` payload this expression raises (handled in
`process_workflow_node`). -/
def hasMessagesAttr : NodeData → Bool
  | .obj o => o.messages.isSome
  | _ => false

/-- Model of `DeepResearchService._process_workflow_node`.  The source
returns `Optional[StreamingEvent]` but every path returns an event.  For a
`raising` payload the metadata expression (see `hasMessagesAttr`) raises a
non-`AttributeError` out of `hasattr`, and the method's `except` returns the
error event with `stage=ERROR` and the `error` field set. -/
def process_workflow_node (node_name : String) (d : NodeData)
    (rid mdl : String) (node_count : Nat) : StreamingEvent :=
  match d with
  | .raising msg =>
    mkEvent "error" (some .ERROR)
      ("Error processing " ++ node_name ++ ": " ++ msg) rid mdl
      none (some msg)
  | _ =>
    mkEvent "stage_update" (some (stage_mapping node_name))
      (generate_node_content node_name d node_count) rid mdl
      (some [("node_name", .s node_name), ("node_count", .n node_count),
             ("has_messages", .b (hasMessagesAttr d))])
      none

/-! ## Supervisor sub-event expansion (`_process_research_supervisor_data`) -/

/-- The truthy `notes` attribute (`hasattr(node_data, 'notes') and
node_data.notes`), as a list: `[]` when absent, empty, or the payload has no
attributes. -/
def notesOf : NodeData → List String
  | .obj o => (truthyList o.notes).getD []
  | _ => []

/-- The truthy `compressed_research` attribute. -/
def compressedOf : NodeData → Option String
  | .obj o => truthyStr o.compressed_research
  | _ => none

/-- The truthy `research_brief` attribute. -/
def researchBriefAttr : NodeData → Option String
  | .obj o => truthyStr o.research_brief
  | _ => none

/-- The truthy `final_report` attribute. -/
def finalReportAttr : NodeData → Option String
  | .obj o => truthyStr o.final_report
  | _ => none

/-- The truthy `messages` attribute, as a list. -/
def messagesOf : NodeData → List Msg
  | .obj o => (truthyList o.messages).getD []
  | _ => []

/-- The supervisor-message list: attribute when present and truthy, else
dict key.  A dict value that is not a message list iterates into objects
with no `tool_calls` attribute, producing no events, so it is modelled as
`[]`. -/
def supMsgsOf : NodeData → List Msg
  | .obj o => (truthyList o.supervisor_messages).getD []
  | .dict entries =>
    match entries.lookup "supervisor_messages" with
    | some (.msgs v) => v
    | _ => []
  | _ => []

/-- One recognized supervisor tool invocation.  `tool_call.get('name',
'unknown_tool')` defaults a missing name to `unknown_tool`, which matches no
branch; a missing name is therefore modelled by any unrecognized string. -/
def toolCallEvent (rid mdl : String) (tc : ToolCall) : Option StreamingEvent :=
  if tc.name == "ConductResearch" then
    let topic := (tc.args.lookup "research_topic").getD "Unknown topic"
    some (mkEvent "research_step" (some .RESEARCH_EXECUTION)
      (litTarget ++ " **Supervisor Decision**: Conducting research on \x27" ++
        topic ++ "\x27") rid mdl
      (some [("step", .s "supervisor_decision"), ("tool", .s tc.name),
             ("topic", .s topic)]) none)
  else if tc.name == "think_tool" then
    let refl := pyTrunc 200 ((tc.args.lookup "reflection").getD "")
    some (mkEvent "research_step" (some .RESEARCH_PLANNING)
      (litThinkFace ++ " **Supervisor Thinking**: " ++ refl) rid mdl
      (some [("step", .s "supervisor_thinking"), ("tool", .s tc.name)]) none)
  else if tc.name == "ResearchComplete" then
    some (mkEvent "research_step" (some .RESEARCH_SYNTHESIS)
      (litCheckMark ++
        " **Supervisor Decision**: Research complete - sufficient information gathered")
      rid mdl
      (some [("step", .s "supervisor_completion"), ("tool", .s tc.name)]) none)
  else none

/-- The research-action pass over `extract_ai_messages` (first 5, only
messages longer than 50 characters): the displayed line is tagged by keyword
sniffing on the lowercased message, an event is emitted, and a
`sources_found` event follows immediately when sources were extracted.
Returns (events, displayed lines, extracted sources). -/
def researchActionStep (rid mdl : String) (total : Nat) (p : Nat × String) :
    List StreamingEvent × List String × List String :=
  if p.2.length > 50 then
    let urls := extract_sources_from_text p.2
    let display :=
      if strContainsSub (pyLower p.2) "search" then
        litGlobe ++ " **Web Search**: " ++ pyTrunc 150 p.2
      else if strContainsSub (pyLower p.2) "think" then
        litThought ++ " **AI Thinking**: " ++ pyTrunc 150 p.2
      else
        litMagnifier ++ " **Research Action**: " ++ pyTrunc 150 p.2
    let ev := mkEvent "research_step" (some .RESEARCH_EXECUTION) display rid mdl
      (some [("step", .s "research_action"), ("query_index", .n (p.1 + 1)),
             ("total_queries", .n total), ("urls", .slist urls)]) none
    let srcEvts :=
      if urls.isEmpty then []
      else
        [mkEvent "sources_found" (some .RESEARCH_EXECUTION)
          (litClip ++ " Found " ++ toString urls.length ++
            " sources from research action " ++ toString (p.1 + 1)) rid mdl
          (some [("sources", .slist urls), ("search_index", .n (p.1 + 1))]) none]
    (ev :: srcEvts, [display], urls)
  else ([], [], [])

/-- Domain shown in the comprehensive digest:
`url.replace('https://', '').replace('http://', '').split('/')[0]`. -/
def urlDomain (url : String) : String :=
  ⟨((url.replace "https://" "").replace "http://" "").data.takeWhile
    (fun c => c != '/')⟩

/-- Model of `DeepResearchService._process_research_supervisor_data` as the
list of events the async generator yields.  The generator's `try` wraps the
whole body and its `except` swallows the exception; for a `raising` payload
the planning event has already been yielded when
`hasattr(node_data, 'supervisor_messages')` raises, so exactly the planning
event is produced. -/
def process_research_supervisor_data (d : NodeData) (rid mdl : String)
    (node_count : Nat) : List StreamingEvent :=
  let planning := mkEvent "research_step" (some .RESEARCH_PLANNING)
    (litTarget ++
      " Planning research strategy and identifying key information sources...")
    rid mdl (some [("step", .s "planning"), ("node_count", .n node_count)]) none
  if isRaising d then [planning]
  else
    let toolEvts := ((supMsgsOf d).take 3).map (fun m =>
      if m.tool_calls.isEmpty then []
      else m.tool_calls.filterMap (toolCallEvent rid mdl)) |>.flatten
    let ams := extract_ai_messages d
    let acts := ((ams.take 5).enum.map (researchActionStep rid mdl ams.length))
    let actEvts := (acts.map (fun t => t.1)).flatten
    let research_queries := (acts.map (fun t => t.2.1)).flatten
    let search_urls := (acts.map (fun t => t.2.2)).flatten
    let comprehensiveEvts :=
      if research_queries.isEmpty then []
      else
        let content :=
          "## " ++ litMagnifier ++ " Research Activities Completed:\n\n" ++
          String.join (research_queries.enum.map fun p =>
            "**" ++ toString (p.1 + 1) ++ ".** " ++ p.2 ++ "\n\n") ++
          (if !search_urls.isEmpty then
            "\n## " ++ litClip ++ " Sources Discovered:\n" ++
            String.join ((search_urls.take 5).map fun url =>
              "- [" ++ urlDomain url ++ "](" ++ url ++ ")\n") ++
            (if search_urls.length > 5 then
              "- +" ++ toString (search_urls.length - 5) ++ " more sources...\n"
            else "")
          else "")
        [mkEvent "research_step" (some .RESEARCH_EXECUTION) content rid mdl
          (some [("step", .s "comprehensive_progress"),
                 ("total_searches", .n research_queries.length),
                 ("total_sources", .n search_urls.length)]) none]
    let analysis := mkEvent "research_step" (some .RESEARCH_ANALYSIS)
      (litChart ++
        " Analyzing findings from multiple sources and cross-referencing information...")
      rid mdl (some [("step", .s "analysis"), ("node_count", .n node_count)]) none
    let findingEvts :=
      (notesOf d).enum.filterMap fun p =>
        if !p.2.isEmpty && p.2.length > 50 then
          some (mkEvent "research_finding" (some .RESEARCH_EXECUTION)
            (litMagnifier ++ " Research Finding " ++ toString (p.1 + 1) ++
              ": " ++ pyTrunc 200 p.2) rid mdl
            (some [("finding_index", .n (p.1 + 1)),
                   ("finding_length", .n p.2.length),
                   ("node_count", .n node_count)]) none)
        else none
    let synthesis := mkEvent "research_step" (some .RESEARCH_SYNTHESIS)
      (litBrain ++ " Synthesizing findings and preparing comprehensive analysis...")
      rid mdl (some [("step", .s "synthesis"), ("node_count", .n node_count)]) none
    let summaryEvts :=
      (compressedOf d).toList.map fun v =>
        mkEvent "research_summary" (some .RESEARCH_EXECUTION)
          (litChart ++ " Research Summary: " ++ pyTrunc 300 v) rid mdl
          (some [("summary_length", .n v.length),
                 ("node_count", .n node_count)]) none
    planning :: toolEvts ++ actEvts ++ comprehensiveEvts ++ [analysis] ++
      findingEvts ++ [synthesis] ++ summaryEvts

/-! ## Stream orchestrator (`stream_research`)

The engine (`deep_researcher.astream`) is an external collaborator: the
model represents one run of its update sequence as a list of chunks (each a
mapping `node_name -> node_data`) followed by an end behaviour — normal
exhaustion or an exception raised on the next pull.  The orchestrator pulls
chunks in order; if it stops pulling (timeout break), the end behaviour is
never observed.  `_create_research_config` resolves model names from the
external `config.json` (not part of this repository's sources); its result
enters the stream only through the two initial events and is passed in as
the `resolvedModel`/`resolvedProvider` parameters.  Clock model: see the
file header. -/

/-- One engine chunk: the named node updates delivered together. -/
abbrev Chunk := List (String × NodeData)

/-- End behaviour of the engine's update sequence after its listed chunks:
normal exhaustion, or an exception raised by the iterator on the next pull. -/
inductive EngineEnd where
  | exhausted
  | engineRaise (msg : String)
deriving DecidableEq, Repr

/-- Loop state of `stream_research`: `node_count`, `last_heartbeat`,
`current_stage` and `chunk_start_time`. -/
structure RunSt where
  cnt : Nat
  lastHb : Nat
  stage : ResearchStage
  chunkStart : Nat
deriving Repr

/-- Python `f"{x:.1f}"` for a whole number of seconds. -/
def fmt1f (x : Nat) : String := toString x ++ ".0"

/-- The per-chunk monitoring `api_call` event.  The float performance
figures are modelled in whole numbers (`Nat` division); the
`timeout_risk` cutoff `total_elapsed > 900 * 0.8` is `elapsed > 720` on
whole seconds. -/
def chunkApiCall (stage : ResearchStage) (rid mdl : String) (cnt : Nat)
    (names : List String) (dur elapsed : Nat) : StreamingEvent :=
  mkEvent "api_call" (some stage)
    ("Processing chunk " ++ toString cnt ++ ": " ++
      String.intercalate ", " names ++ " (" ++ litTimer ++ " " ++ fmt1f dur ++
      "s, total: " ++ fmt1f elapsed ++ "s)") rid mdl
    (some [("chunk_number", .n cnt), ("nodes", .slist names),
           ("chunk_duration", .n dur), ("total_elapsed", .n elapsed),
           ("performance", .nested
             [("chunks_per_minute", .n (if elapsed > 0 then cnt * 60 / elapsed else 0)),
              ("avg_chunk_duration", .n (if cnt > 0 then elapsed / cnt else 0)),
              ("timeout_risk", .s (if elapsed > 720 then "high" else "low"))])])
    none

/-- The heartbeat event (sent when more than 25 seconds passed since the
last heartbeat). -/
def heartbeatEvt (stage : ResearchStage) (rid mdl : String)
    (elapsed cnt : Nat) : StreamingEvent :=
  mkEvent "heartbeat" (some stage)
    ("Research in progress... (elapsed: " ++ toString elapsed ++ "s)") rid mdl
    (some [("elapsed_time", .n elapsed), ("chunks_processed", .n cnt),
           ("heartbeat", .b true)]) none

/-- The timeout warning event (`RESEARCH_TIMEOUT = 900`, so the content
reports `900 // 60 = 15` minutes). -/
def timeoutEvt (stage : ResearchStage) (rid mdl : String)
    (cnt elapsed : Nat) : StreamingEvent :=
  mkEvent "timeout_warning" (some stage)
    ("Research timed out after 15 minutes. Providing partial results based on "
      ++ toString cnt ++ " completed research steps.") rid mdl
    (some [("timeout_duration", .n 900), ("chunks_completed", .n cnt),
           ("elapsed_time", .n elapsed)]) none

/-- The auxiliary fan-out the orchestrator performs on each processed node
event's content (source lines 205-260): one `api_call` per non-empty block
for `crawl_log`, `search_queries`, `social_profiles` and
`ecommerce_listings` — the source never emits one for `first_party_pages` —
then one `sources_found` event when sources were extracted.  The guard
`if json_blocks:` is always true in the model: `_extract_json_blocks`
returns its five-key dict on every path except its unreachable outer
`except`. -/
def auxEvents (stage : ResearchStage) (rid mdl content node_name : String) :
    List StreamingEvent :=
  let jb := extract_json_blocks content
  (if !jb.crawl_log.isEmpty then
    [mkEvent "api_call" (some stage)
      ("Captured CrawlLog JSON with " ++ toString jb.crawl_log.length ++
        " entries") rid mdl (some [("crawl_log", .jarr jb.crawl_log)]) none]
  else []) ++
  (if !jb.search_queries.isEmpty then
    [mkEvent "api_call" (some stage)
      ("Captured SearchQueries JSON with " ++ toString jb.search_queries.length ++
        " queries") rid mdl (some [("search_queries", .jarr jb.search_queries)]) none]
  else []) ++
  (if !jb.social_profiles.isEmpty then
    [mkEvent "api_call" (some stage)
      ("Captured SocialProfiles JSON with " ++ toString jb.social_profiles.length ++
        " profiles") rid mdl (some [("social_profiles", .jarr jb.social_profiles)]) none]
  else []) ++
  (if !jb.ecommerce_listings.isEmpty then
    [mkEvent "api_call" (some stage)
      ("Captured EcommerceListings JSON with " ++ toString jb.ecommerce_listings.length ++
        " listings") rid mdl (some [("ecommerce_listings", .jarr jb.ecommerce_listings)]) none]
  else []) ++
  (let sources := extract_sources_from_text content
   if !sources.isEmpty then
    [mkEvent "sources_found" (some stage)
      (litClip ++ " Found " ++ toString sources.length ++ " sources") rid mdl
      (some [("sources", .slist sources), ("node_name", .s node_name)]) none]
  else [])

/-- The orchestrator fills the node event's metadata with `node_duration`
before yielding (0 under the instantaneous-processing clock model; the
error branch of `_process_workflow_node` passes no metadata, so the dict is
created here). -/
def addNodeDuration (e : StreamingEvent) : StreamingEvent :=
  { e with metadata := some ((e.metadata.getD []) ++ [("node_duration", .n 0)]) }

/-- Handling of one `(node_name, node_data)` pair inside the chunk loop
(source lines 184-273): process the node (always yields an event —
`_process_workflow_node` returns one on every path), update
`current_stage`, fan out auxiliary events from the content, and expand
supervisor sub-events when the node is the truthy `research_supervisor`.
The surrounding per-node `try/except ... continue` never fires after this
point in the model (see `nodeTruthy` for the one raising subexpression). -/
def processItem (rid mdl : String) (cnt : Nat) (stage : ResearchStage)
    (name : String) (d : NodeData) : List StreamingEvent × ResearchStage :=
  let ev0 := process_workflow_node name d rid mdl cnt
  let newStage := ev0.stage.getD stage
  let ev := addNodeDuration ev0
  let fan := if !ev.content.isEmpty then auxEvents newStage rid mdl ev.content name
             else []
  let supEvts :=
    if name == "research_supervisor" && nodeTruthy d then
      process_research_supervisor_data d rid mdl cnt
    else []
  (ev :: fan ++ supEvts, newStage)

/-- Fold of `processItem` over one chunk's items, threading
`current_stage`. -/
def processItems (rid mdl : String) (cnt : Nat) :
    ResearchStage → List (String × NodeData) → List StreamingEvent × ResearchStage
  | stage, [] => ([], stage)
  | stage, (name, d) :: rest =>
    let pi := processItem rid mdl cnt stage name d
    let pis := processItems rid mdl cnt pi.2 rest
    (pi.1 ++ pis.1, pis.2)

/-- The chunk loop of `stream_research` (source lines 113-273): for the
i-th chunk, emit the monitoring `api_call`, a heartbeat when due, then
either the timeout warning and a break (timeout is checked before node
processing, so the timing-out chunk's nodes are never processed) or the
chunk's node events.  Returns the emitted events, the final state and
whether the loop broke on timeout. -/
def runChunks (rid mdl : String) (t0 : Nat) (times : Nat → Nat) :
    Nat → RunSt → List Chunk → List StreamingEvent × RunSt × Bool
  | _, st, [] => ([], st, false)
  | i, st, ch :: rest =>
    let t := times i
    let cnt := st.cnt + 1
    let e1 := chunkApiCall st.stage rid mdl cnt (ch.map (fun p => p.1))
      (t - st.chunkStart) (t - t0)
    let hb := t - st.lastHb > 25
    let hbEvts := if hb then [heartbeatEvt st.stage rid mdl (t - t0) cnt] else []
    let lastHb2 := if hb then t else st.lastHb
    if t - t0 > 900 then
      (e1 :: hbEvts ++ [timeoutEvt st.stage rid mdl cnt (t - t0)],
        { st with cnt := cnt, lastHb := lastHb2, chunkStart := t }, true)
    else
      let pis := processItems rid mdl cnt st.stage ch
      let rc := runChunks rid mdl t0 times (i + 1)
        { cnt := cnt, lastHb := lastHb2, stage := pis.2, chunkStart := t } rest
      (e1 :: hbEvts ++ pis.1 ++ rc.1, rc.2.1, rc.2.2)

/-- The initial `stage_start` event. -/
def startEvt (query rid mdl resolvedModel resolvedProvider : String)
    (t0 : Nat) : StreamingEvent :=
  mkEvent "stage_start" (some .INITIALIZATION)
    ("Starting deep research for: " ++ query) rid mdl
    (some [("query", .s query), ("model_config", .s mdl),
           ("resolved_model", .s resolvedModel),
           ("provider", .s resolvedProvider), ("start_time", .n t0)]) none

/-- The initial model-resolution `api_call` trace event. -/
def initApiEvt (rid mdl resolvedModel resolvedProvider : String) :
    StreamingEvent :=
  mkEvent "api_call" (some .INITIALIZATION)
    ("Using resolved model: " ++ resolvedModel ++ " (provider: " ++
      resolvedProvider ++ ")") rid mdl none none

/-- The final completion event. -/
def completeEvt (rid mdl : String) (totalNodes : Nat) : StreamingEvent :=
  mkEvent "stage_complete" (some .COMPLETED)
    "Deep research completed successfully!" rid mdl
    (some [("total_nodes", .n totalNodes)]) none

/-- The terminal error event of the outer `except` branch. -/
def errorEvt (stage : ResearchStage) (rid mdl msg : String) : StreamingEvent :=
  mkEvent "error" (some stage) ("Error occurred: " ++ msg) rid mdl none
    (some msg)

/-- Model of `DeepResearchService.stream_research` for one session whose
configuration step succeeded (a failing `_create_research_config` raises
before the first `yield`, producing a lone `error` event and no initial
event; that path is outside every claim's premise and is not modelled).
The engine exception is re-raised by the inner `except` and caught by the
outer handler, which appends the terminal `error` event; on normal
exhaustion or after a timeout break the terminal `stage_complete` is
appended instead. -/
def stream_research (query mdl _api_key rid : String)
    (resolvedModel resolvedProvider : String) (chunks : List Chunk)
    (tail : EngineEnd) (t0 : Nat) (times : Nat → Nat) : List StreamingEvent :=
  let st0 : RunSt := { cnt := 0, lastHb := t0, stage := .INITIALIZATION,
                       chunkStart := t0 }
  let (evs, st, broke) := runChunks rid mdl t0 times 0 st0 chunks
  let finalEvts :=
    if broke then [completeEvt rid mdl st.cnt]
    else
      match tail with
      | .exhausted => [completeEvt rid mdl st.cnt]
      | .engineRaise m => [errorEvt st.stage rid mdl m]
  startEvt query rid mdl resolvedModel resolvedProvider t0 ::
    initApiEvt rid mdl resolvedModel resolvedProvider :: evs ++ finalEvts

/-! ## Infrastructure lemmas -/

theorem mem_ite_cons_nil {α : Type} {c : Prop} [Decidable c] {x e : α}
    (h : e ∈ (if c then [x] else ([] : List α))) : e = x := by
  split at h
  · simpa using h
  · simp at h

theorem mem_ite_nil_cons {α : Type} {c : Prop} [Decidable c] {x e : α}
    (h : e ∈ (if c then ([] : List α) else [x])) : e = x := by
  split at h
  · simp at h
  · simpa using h

theorem countType_append (ty : String) (l1 l2 : List StreamingEvent) :
    countType ty (l1 ++ l2) = countType ty l1 + countType ty l2 := by
  simp [countType, List.filter_append]

theorem countType_cons (ty : String) (e : StreamingEvent)
    (l : List StreamingEvent) :
    countType ty (e :: l) =
      (if e.type == ty then 1 else 0) + countType ty l := by
  simp only [countType, List.filter_cons]
  split <;> simp [Nat.add_comm]

theorem countType_eq_zero (ty : String) {l : List StreamingEvent}
    (h : ∀ e ∈ l, e.type ≠ ty) : countType ty l = 0 := by
  have : l.filter (fun e => e.type == ty) = [] := by
    rw [List.filter_eq_nil_iff]
    intro e he
    simpa using h e he
  simp [countType, this]

/-- Event types that can appear between one chunk's node event and the next
(node processing and its fan-out). -/
def isNodeEventType (ty : String) : Prop :=
  ty = "stage_update" ∨ ty = "error" ∨ ty = "api_call" ∨
  ty = "sources_found" ∨ ty = "research_step" ∨ ty = "research_finding" ∨
  ty = "research_summary"

/-- Event types the chunk loop can emit. -/
def isLoopEventType (ty : String) : Prop :=
  isNodeEventType ty ∨ ty = "heartbeat" ∨ ty = "timeout_warning"

theorem isLoopEventType_ne (ty : String) (h : isLoopEventType ty) :
    ty ≠ "stage_complete" ∧ ty ≠ "stage_start" := by
  rcases h with (h | h | h | h | h | h | h) | h | h <;> subst h <;>
    exact ⟨by decide, by decide⟩

/-- Every auxiliary fan-out event is an `api_call` or `sources_found` event
of the session. -/
theorem auxEvents_spec (stage : ResearchStage) (rid mdl content nn : String) :
    ∀ e ∈ auxEvents stage rid mdl content nn,
      (e.type = "api_call" ∨ e.type = "sources_found") ∧
      e.research_id = rid ∧ e.model = mdl := by
  intro e he
  simp only [auxEvents, List.mem_append] at he
  rcases he with (((h | h) | h) | h) | h <;>
    first
    | (cases mem_ite_cons_nil h; exact ⟨Or.inl rfl, rfl, rfl⟩)
    | (cases mem_ite_cons_nil h; exact ⟨Or.inr rfl, rfl, rfl⟩)

/-- Every recognized tool invocation yields a `research_step` event of the
session. -/
theorem toolCallEvent_spec (rid mdl : String) (tc : ToolCall)
    (e : StreamingEvent) (h : toolCallEvent rid mdl tc = some e) :
    e.type = "research_step" ∧ e.research_id = rid ∧ e.model = mdl := by
  unfold toolCallEvent at h
  split_ifs at h <;> cases h <;> exact ⟨rfl, rfl, rfl⟩

/-- Every research-action event is a `research_step` or `sources_found`
event of the session. -/
theorem researchActionStep_spec (rid mdl : String) (total : Nat)
    (p : Nat × String) :
    ∀ e ∈ (researchActionStep rid mdl total p).1,
      (e.type = "research_step" ∨ e.type = "sources_found") ∧
      e.research_id = rid ∧ e.model = mdl := by
  intro e he
  unfold researchActionStep at he
  split at he
  · simp only [List.mem_cons] at he
    rcases he with h | h
    · cases h; exact ⟨Or.inl rfl, rfl, rfl⟩
    · cases mem_ite_nil_cons h; exact ⟨Or.inr rfl, rfl, rfl⟩
  · simp at he

/-- Every supervisor sub-event is a `research_step`, `sources_found`,
`research_finding` or `research_summary` event of the session. -/
theorem supervisorEvents_spec (d : NodeData) (rid mdl : String) (cnt : Nat) :
    ∀ e ∈ process_research_supervisor_data d rid mdl cnt,
      (e.type = "research_step" ∨ e.type = "sources_found" ∨
       e.type = "research_finding" ∨ e.type = "research_summary") ∧
      e.research_id = rid ∧ e.model = mdl := by
  unfold process_research_supervisor_data
  split
  · intro e he
    rcases List.mem_singleton.mp he
    exact ⟨Or.inl rfl, rfl, rfl⟩
  · simp only [List.forall_mem_cons, List.forall_mem_append, List.not_mem_nil,
      false_implies, implies_true, and_true]
    refine ⟨⟨⟨⟨⟨⟨⟨?_, ?_⟩, ?_⟩, ?_⟩, ?_⟩, ?_⟩, ?_⟩, ?_⟩
    · exact ⟨Or.inl rfl, rfl, rfl⟩
    · -- tool-call events
      intro e he
      simp only [List.mem_flatten, List.mem_map] at he
      obtain ⟨l, ⟨m, _, hm⟩, hel⟩ := he
      subst hm
      split at hel
      · simp at hel
      · simp only [List.mem_filterMap] at hel
        obtain ⟨tc, _, htc⟩ := hel
        obtain ⟨h1, h2, h3⟩ := toolCallEvent_spec rid mdl tc e htc
        exact ⟨Or.inl h1, h2, h3⟩
    · -- research-action events
      intro e he
      simp only [List.mem_flatten, List.mem_map] at he
      obtain ⟨l, ⟨t, ⟨q, _, hq⟩, ht⟩, hel⟩ := he
      subst hq; subst ht
      obtain ⟨h1, h2, h3⟩ := researchActionStep_spec rid mdl _ q e hel
      rcases h1 with h1 | h1
      · exact ⟨Or.inl h1, h2, h3⟩
      · exact ⟨Or.inr (Or.inl h1), h2, h3⟩
    · -- comprehensive digest event
      intro e he
      rcases mem_ite_nil_cons he
      exact ⟨Or.inl rfl, rfl, rfl⟩
    · -- analysis marker
      exact ⟨Or.inl rfl, rfl, rfl⟩
    · -- per-finding events
      intro e he
      simp only [List.mem_filterMap] at he
      obtain ⟨p, _, hp⟩ := he
      split at hp
      · rcases hp; exact ⟨Or.inr (Or.inr (Or.inl rfl)), rfl, rfl⟩
      · simp at hp
    · -- synthesis marker
      exact ⟨Or.inl rfl, rfl, rfl⟩
    · -- research-summary event
      intro e he
      simp only [List.mem_map] at he
      obtain ⟨v, _, hv⟩ := he
      rcases hv; exact ⟨Or.inr (Or.inr (Or.inr rfl)), rfl, rfl⟩

/-- The node-processor event is a `stage_update` or `error` event of the
session. -/
theorem process_workflow_node_spec (name : String) (d : NodeData)
    (rid mdl : String) (cnt : Nat) :
    ((process_workflow_node name d rid mdl cnt).type = "stage_update" ∨
     (process_workflow_node name d rid mdl cnt).type = "error") ∧
    (process_workflow_node name d rid mdl cnt).research_id = rid ∧
    (process_workflow_node name d rid mdl cnt).model = mdl := by
  cases d <;>
    first
    | exact ⟨Or.inl rfl, rfl, rfl⟩
    | exact ⟨Or.inr rfl, rfl, rfl⟩

theorem addNodeDuration_type (e : StreamingEvent) :
    (addNodeDuration e).type = e.type := rfl

theorem addNodeDuration_research_id (e : StreamingEvent) :
    (addNodeDuration e).research_id = e.research_id := rfl

theorem addNodeDuration_model (e : StreamingEvent) :
    (addNodeDuration e).model = e.model := rfl

/-- Every event produced for one node update has a node-level event type and
belongs to the session. -/
theorem processItem_spec (rid mdl : String) (cnt : Nat)
    (stage : ResearchStage) (name : String) (d : NodeData) :
    ∀ e ∈ (processItem rid mdl cnt stage name d).1,
      isNodeEventType e.type ∧ e.research_id = rid ∧ e.model = mdl := by
  intro e he
  unfold processItem at he
  simp only [List.mem_cons, List.mem_append] at he
  rcases he with (he | he) | he
  · subst he
    obtain ⟨h1, h2, h3⟩ := process_workflow_node_spec name d rid mdl cnt
    refine ⟨?_, h2, h3⟩
    rw [addNodeDuration_type]
    unfold isNodeEventType; tauto
  · split at he
    · obtain ⟨h1, h2, h3⟩ := auxEvents_spec _ rid mdl _ _ e he
      refine ⟨?_, h2, h3⟩
      unfold isNodeEventType; tauto
    · simp at he
  · split at he
    · obtain ⟨h1, h2, h3⟩ := supervisorEvents_spec d rid mdl cnt e he
      refine ⟨?_, h2, h3⟩
      unfold isNodeEventType; tauto
    · simp at he

/-- Every event produced for one chunk's node updates has a node-level event
type and belongs to the session. -/
theorem processItems_spec (rid mdl : String) (cnt : Nat) :
    ∀ (items : List (String × NodeData)) (stage : ResearchStage),
      ∀ e ∈ (processItems rid mdl cnt stage items).1,
        isNodeEventType e.type ∧ e.research_id = rid ∧ e.model = mdl := by
  intro items
  induction items with
  | nil => intro stage e he; simp [processItems] at he
  | cons item rest ih =>
    obtain ⟨name, d⟩ := item
    intro stage e he
    rw [processItems] at he
    rcases List.mem_append.mp he with he | he
    · exact processItem_spec rid mdl cnt stage name d e he
    · exact ih _ e he

/-- Every event the chunk loop emits has a loop-level event type and belongs
to the session. -/
theorem runChunks_spec (rid mdl : String) (t0 : Nat) (times : Nat → Nat) :
    ∀ (chunks : List Chunk) (i : Nat) (st : RunSt),
      ∀ e ∈ (runChunks rid mdl t0 times i st chunks).1,
        isLoopEventType e.type ∧ e.research_id = rid ∧ e.model = mdl := by
  intro chunks
  induction chunks with
  | nil => intro i st e he; simp [runChunks] at he
  | cons ch rest ih =>
    intro i st e he
    rw [runChunks] at he
    split at he
    · simp only [List.mem_cons, List.mem_append, List.mem_singleton,
        List.not_mem_nil, or_false] at he
      rcases he with (he | he) | he
      · subst he; exact ⟨Or.inl (Or.inr (Or.inr (Or.inl rfl))), rfl, rfl⟩
      · rcases mem_ite_cons_nil he
        exact ⟨Or.inr (Or.inl rfl), rfl, rfl⟩
      · subst he; exact ⟨Or.inr (Or.inr rfl), rfl, rfl⟩
    · simp only [List.mem_cons, List.mem_append] at he
      rcases he with ((he | he) | he) | he
      · subst he; exact ⟨Or.inl (Or.inr (Or.inr (Or.inl rfl))), rfl, rfl⟩
      · rcases mem_ite_cons_nil he
        exact ⟨Or.inr (Or.inl rfl), rfl, rfl⟩
      · obtain ⟨h1, h2, h3⟩ := processItems_spec rid mdl _ ch _ e he
        exact ⟨Or.inl h1, h2, h3⟩
      · exact ih _ _ e he

theorem isNodeEventType_ne (ty : String) (h : isNodeEventType ty) :
    ty ≠ "timeout_warning" ∧ ty ≠ "stage_complete" ∧ ty ≠ "stage_start" := by
  rcases h with h | h | h | h | h | h | h <;> subst h <;>
    exact ⟨by decide, by decide, by decide⟩

theorem processItems_countType (rid mdl : String) (cnt : Nat)
    (stage : ResearchStage) (items : List (String × NodeData)) (ty : String)
    (hty : ty = "timeout_warning" ∨ ty = "stage_complete" ∨ ty = "stage_start") :
    countType ty (processItems rid mdl cnt stage items).1 = 0 := by
  apply countType_eq_zero
  intro e he
  obtain ⟨h1, _, _⟩ := processItems_spec rid mdl cnt items stage e he
  obtain ⟨n1, n2, n3⟩ := isNodeEventType_ne e.type h1
  rcases hty with h | h | h <;> subst h <;> assumption

theorem countType_nil (ty : String) : countType ty [] = 0 := rfl

theorem countType_singleton (ty : String) (e : StreamingEvent) :
    countType ty [e] = if e.type == ty then 1 else 0 := by
  show (List.filter (fun e2 => e2.type == ty) [e]).length = _
  rw [List.filter_cons]
  cases h : e.type == ty <;> simp [h]

theorem countType_ite_singleton (ty : String) (c : Prop) [Decidable c]
    (e : StreamingEvent) :
    countType ty (if c then [e] else []) =
      if c then (if e.type == ty then 1 else 0) else 0 := by
  split
  · exact countType_singleton ty e
  · rfl

@[simp] theorem type_chunkApiCall (stage : ResearchStage) (rid mdl : String)
    (cnt : Nat) (names : List String) (dur elapsed : Nat) :
    (chunkApiCall stage rid mdl cnt names dur elapsed).type = "api_call" := rfl

@[simp] theorem type_heartbeatEvt (stage : ResearchStage) (rid mdl : String)
    (elapsed cnt : Nat) :
    (heartbeatEvt stage rid mdl elapsed cnt).type = "heartbeat" := rfl

@[simp] theorem type_timeoutEvt (stage : ResearchStage) (rid mdl : String)
    (cnt elapsed : Nat) :
    (timeoutEvt stage rid mdl cnt elapsed).type = "timeout_warning" := rfl

@[simp] theorem type_completeEvt (rid mdl : String) (n : Nat) :
    (completeEvt rid mdl n).type = "stage_complete" := rfl

@[simp] theorem type_errorEvt (stage : ResearchStage) (rid mdl msg : String) :
    (errorEvt stage rid mdl msg).type = "error" := rfl

@[simp] theorem type_startEvt (query rid mdl rm rp : String) (t0 : Nat) :
    (startEvt query rid mdl rm rp t0).type = "stage_start" := rfl

@[simp] theorem type_initApiEvt (rid mdl rm rp : String) :
    (initApiEvt rid mdl rm rp).type = "api_call" := rfl

/-- If no chunk arrives after the 900-second deadline, the loop never breaks
on timeout. -/
theorem runChunks_noTimeout (rid mdl : String) (t0 : Nat) (times : Nat → Nat) :
    ∀ (chunks : List Chunk) (i : Nat) (st : RunSt),
      (∀ k, k < chunks.length → times (i + k) - t0 ≤ 900) →
      (runChunks rid mdl t0 times i st chunks).2.2 = false := by
  intro chunks
  induction chunks with
  | nil => intro i st _; rfl
  | cons ch rest ih =>
    intro i st h
    have h0 : times i - t0 ≤ 900 := by simpa using h 0 (by simp)
    simp only [runChunks]
    rw [if_neg (by omega)]
    exact ih (i + 1) _ (fun k hk => by
      have := h (k + 1) (by simpa using Nat.succ_lt_succ hk)
      rwa [show i + (k + 1) = i + 1 + k by omega] at this)

/-- Structure of a run that breaks on timeout: the emitted events are a
prefix containing no timeout warning and no completion event, followed by
exactly one timeout warning whose `chunks_completed` is the final chunk
count and whose elapsed time exceeds the 900-second ceiling; nothing
follows it. -/
theorem runChunks_timeout (rid mdl : String) (t0 : Nat) (times : Nat → Nat) :
    ∀ (chunks : List Chunk) (i : Nat) (st : RunSt),
      (runChunks rid mdl t0 times i st chunks).2.2 = true →
      ∃ pre stg elap,
        (runChunks rid mdl t0 times i st chunks).1 =
          pre ++ [timeoutEvt stg rid mdl
            (runChunks rid mdl t0 times i st chunks).2.1.cnt elap] ∧
        elap > 900 ∧
        countType "timeout_warning" pre = 0 ∧
        countType "stage_complete" pre = 0 := by
  intro chunks
  induction chunks with
  | nil => intro i st h; simp [runChunks] at h
  | cons ch rest ih =>
    intro i st h
    by_cases hc : times i - t0 > 900
    · refine ⟨chunkApiCall st.stage rid mdl (st.cnt + 1) (ch.map (fun p => p.1))
          (times i - st.chunkStart) (times i - t0) ::
          (if times i - st.lastHb > 25 then
            [heartbeatEvt st.stage rid mdl (times i - t0) (st.cnt + 1)]
          else []),
        st.stage, times i - t0, ?_, hc, ?_, ?_⟩
      · simp only [runChunks]
        rw [if_pos hc]
      · simp [countType_cons, countType_ite_singleton]
      · simp [countType_cons, countType_ite_singleton]
    · have hb : (runChunks rid mdl t0 times (i + 1)
          { cnt := st.cnt + 1,
            lastHb := if times i - st.lastHb > 25 then times i else st.lastHb,
            stage := (processItems rid mdl (st.cnt + 1) st.stage ch).2,
            chunkStart := times i } rest).2.2 = true := by
        have := h
        simp only [runChunks] at this
        rw [if_neg hc] at this
        exact this
      obtain ⟨pre, stg, elap, heq, helap, hcount1, hcount2⟩ := ih _ _ hb
      refine ⟨chunkApiCall st.stage rid mdl (st.cnt + 1) (ch.map (fun p => p.1))
          (times i - st.chunkStart) (times i - t0) ::
          (if times i - st.lastHb > 25 then
            [heartbeatEvt st.stage rid mdl (times i - t0) (st.cnt + 1)]
          else []) ++ (processItems rid mdl (st.cnt + 1) st.stage ch).1 ++ pre,
        stg, elap, ?_, helap, ?_, ?_⟩
      · simp only [runChunks]
        rw [if_neg hc]
        simp only [List.cons_append, List.append_assoc]
        rw [heq]
      · rw [countType_append, countType_append, countType_cons, hcount1,
          processItems_countType rid mdl _ _ _ _ (Or.inl rfl),
          countType_ite_singleton]
        simp
      · rw [countType_append, countType_append, countType_cons, hcount2,
          processItems_countType rid mdl _ _ _ _ (Or.inr (Or.inl rfl)),
          countType_ite_singleton]
        simp

/-- The chunk loop's output grouped into one block per consumed engine
update, in consumption order (the last block also holds the timeout warning
when the loop broke).  `runChunks_eq_flatten` identifies the loop's event
sequence with the concatenation of these blocks, which is the formal
statement that events are emitted in update order with no reordering. -/
def chunkBlocks (rid mdl : String) (t0 : Nat) (times : Nat → Nat) :
    Nat → RunSt → List Chunk → List (List StreamingEvent)
  | _, _, [] => []
  | i, st, ch :: rest =>
    let t := times i
    let cnt := st.cnt + 1
    let e1 := chunkApiCall st.stage rid mdl cnt (ch.map (fun p => p.1))
      (t - st.chunkStart) (t - t0)
    let hb := t - st.lastHb > 25
    let hbEvts := if hb then [heartbeatEvt st.stage rid mdl (t - t0) cnt] else []
    let lastHb2 := if hb then t else st.lastHb
    if t - t0 > 900 then
      [e1 :: hbEvts ++ [timeoutEvt st.stage rid mdl cnt (t - t0)]]
    else
      let pis := processItems rid mdl cnt st.stage ch
      (e1 :: hbEvts ++ pis.1) ::
        chunkBlocks rid mdl t0 times (i + 1)
          { cnt := cnt, lastHb := lastHb2, stage := pis.2, chunkStart := t } rest

theorem runChunks_eq_flatten (rid mdl : String) (t0 : Nat) (times : Nat → Nat) :
    ∀ (chunks : List Chunk) (i : Nat) (st : RunSt),
      (runChunks rid mdl t0 times i st chunks).1 =
        (chunkBlocks rid mdl t0 times i st chunks).flatten := by
  intro chunks
  induction chunks with
  | nil => intro i st; rfl
  | cons ch rest ih =>
    intro i st
    simp only [runChunks, chunkBlocks]
    split
    · simp
    · simp [ih]

/-- Without a timeout the loop consumes every update: one block per chunk. -/
theorem chunkBlocks_length (rid mdl : String) (t0 : Nat) (times : Nat → Nat) :
    ∀ (chunks : List Chunk) (i : Nat) (st : RunSt),
      (∀ k, k < chunks.length → times (i + k) - t0 ≤ 900) →
      (chunkBlocks rid mdl t0 times i st chunks).length = chunks.length := by
  intro chunks
  induction chunks with
  | nil => intro i st _; rfl
  | cons ch rest ih =>
    intro i st h
    have h0 : times i - t0 ≤ 900 := by simpa using h 0 (by simp)
    simp only [chunkBlocks]
    rw [if_neg (by omega)]
    simp only [List.length_cons]
    rw [ih (i + 1) _ (fun k hk => by
      have := h (k + 1) (by simpa using Nat.succ_lt_succ hk)
      rwa [show i + (k + 1) = i + 1 + k by omega] at this)]

/-- The event the orchestrator yields for a node whose payload raises
during processing: `_process_workflow_node`'s `except` event, with the
`node_duration` metadata the loop adds before yielding. -/
def raisingNodeErrorEvt (name msg rid mdl : String) : StreamingEvent :=
  addNodeDuration (mkEvent "error" (some .ERROR)
    ("Error processing " ++ name ++ ": " ++ msg) rid mdl none (some msg))

theorem processItem_raising_mem (rid mdl : String) (cnt : Nat)
    (stage : ResearchStage) (name msg : String) :
    raisingNodeErrorEvt name msg rid mdl ∈
      (processItem rid mdl cnt stage name (.raising msg)).1 := by
  unfold processItem
  exact List.mem_cons_self _ _

theorem processItems_raising_mem (rid mdl : String) (cnt : Nat)
    (name msg : String) :
    ∀ (items : List (String × NodeData)) (stage : ResearchStage),
      (name, NodeData.raising msg) ∈ items →
      raisingNodeErrorEvt name msg rid mdl ∈
        (processItems rid mdl cnt stage items).1 := by
  intro items
  induction items with
  | nil => intro stage h; simp at h
  | cons item rest ih =>
    obtain ⟨n2, d2⟩ := item
    intro stage hmem
    rw [processItems]
    rcases List.mem_cons.mp hmem with h | h
    · obtain ⟨h1, h2⟩ := Prod.mk.injEq .. ▸ h
      subst h1; subst h2
      exact List.mem_append.mpr (Or.inl (processItem_raising_mem rid mdl cnt stage name msg))
    · exact List.mem_append.mpr (Or.inr (ih _ h))

theorem runChunks_raising_mem (rid mdl : String) (t0 : Nat)
    (times : Nat → Nat) (name msg : String) :
    ∀ (chunks : List Chunk) (i : Nat) (st : RunSt) (ch : Chunk),
      (∀ k, k < chunks.length → times (i + k) - t0 ≤ 900) →
      ch ∈ chunks → (name, NodeData.raising msg) ∈ ch →
      raisingNodeErrorEvt name msg rid mdl ∈
        (runChunks rid mdl t0 times i st chunks).1 := by
  intro chunks
  induction chunks with
  | nil => intro i st ch _ hch _; simp at hch
  | cons c rest ih =>
    intro i st ch hnt hch hmem
    have h0 : times i - t0 ≤ 900 := by simpa using hnt 0 (by simp)
    simp only [runChunks]
    rw [if_neg (by omega)]
    rcases List.mem_cons.mp hch with h | h
    · subst h
      exact List.mem_cons_of_mem _ (List.mem_append.mpr (Or.inl
        (List.mem_append.mpr (Or.inr
          (processItems_raising_mem rid mdl _ name msg ch _ hmem)))))
    · exact List.mem_cons_of_mem _ (List.mem_append.mpr (Or.inr
        (ih (i + 1) _ ch (fun k hk => by
          have := hnt (k + 1) (by simpa using Nat.succ_lt_succ hk)
          rwa [show i + (k + 1) = i + 1 + k by omega] at this) h hmem)))

/-- The terminal event of one `stream_research` run: the completion event
when the loop broke on timeout or the engine exhausted normally, the error
event when the engine's iterator raised. -/
def streamTerminalEvt (rid mdl : String) (chunks : List Chunk)
    (tail : EngineEnd) (t0 : Nat) (times : Nat → Nat) : StreamingEvent :=
  let res := runChunks rid mdl t0 times 0
    { cnt := 0, lastHb := t0, stage := .INITIALIZATION, chunkStart := t0 } chunks
  if res.2.2 then completeEvt rid mdl res.2.1.cnt
  else
    match tail with
    | .exhausted => completeEvt rid mdl res.2.1.cnt
    | .engineRaise m => errorEvt res.2.1.stage rid mdl m

/-- `stream_research` is the two initial events, the loop's events, and the
terminal event. -/
theorem stream_research_decomp (query mdl api_key rid rm rp : String)
    (chunks : List Chunk) (tail : EngineEnd) (t0 : Nat) (times : Nat → Nat) :
    stream_research query mdl api_key rid rm rp chunks tail t0 times =
      startEvt query rid mdl rm rp t0 :: initApiEvt rid mdl rm rp ::
        (runChunks rid mdl t0 times 0
          { cnt := 0, lastHb := t0, stage := .INITIALIZATION, chunkStart := t0 }
          chunks).1 ++
        [streamTerminalEvt rid mdl chunks tail t0 times] := by
  unfold stream_research streamTerminalEvt
  by_cases hb : (runChunks rid mdl t0 times 0
      { cnt := 0, lastHb := t0, stage := .INITIALIZATION, chunkStart := t0 }
      chunks).2.2
  · simp [hb]
  · cases tail <;> simp [hb]

theorem runChunks_countType (rid mdl : String) (t0 : Nat) (times : Nat → Nat)
    (chunks : List Chunk) (i : Nat) (st : RunSt) (ty : String)
    (hty : ty = "stage_complete" ∨ ty = "stage_start") :
    countType ty (runChunks rid mdl t0 times i st chunks).1 = 0 := by
  apply countType_eq_zero
  intro e he
  obtain ⟨h1, _, _⟩ := runChunks_spec rid mdl t0 times chunks i st e he
  rcases h1 with h1 | h1 | h1
  · obtain ⟨_, n2, n3⟩ := isNodeEventType_ne e.type h1
    rcases hty with h | h <;> subst h <;> assumption
  · rw [h1]; rcases hty with h | h <;> subst h <;> decide
  · rw [h1]; rcases hty with h | h <;> subst h <;> decide

/-! ## Claim theorems -/

/-- C1: for every session that begins (the initial event is always yielded
once the configuration step succeeded), the consumer receives exactly one
terminal event: the run's last event exists, is of type `stage_complete` or
`error`, nothing follows it, and a `stage_complete` event occurs exactly
once when the terminal event is a completion (normal exhaustion or timeout)
and never when the terminal event is the engine-failure `error`. -/
theorem C1_exactly_one_terminal (query mdl api_key rid rm rp : String)
    (chunks : List Chunk) (tail : EngineEnd) (t0 : Nat) (times : Nat → Nat) :
    (stream_research query mdl api_key rid rm rp chunks tail t0 times).getLast? =
      some (streamTerminalEvt rid mdl chunks tail t0 times) ∧
    ((streamTerminalEvt rid mdl chunks tail t0 times).type = "stage_complete" ∨
     (streamTerminalEvt rid mdl chunks tail t0 times).type = "error") ∧
    countType "stage_complete"
        (stream_research query mdl api_key rid rm rp chunks tail t0 times) =
      (if (streamTerminalEvt rid mdl chunks tail t0 times).type = "stage_complete"
       then 1 else 0) := by
  refine ⟨?_, ?_, ?_⟩
  · rw [stream_research_decomp]
    exact List.getLast?_concat _
  · unfold streamTerminalEvt
    cases tail <;>
      by_cases hbk : (runChunks rid mdl t0 times 0
        { cnt := 0, lastHb := t0, stage := ResearchStage.INITIALIZATION,
          chunkStart := t0 } chunks).2.2 <;>
      simp [hbk]
  · rw [stream_research_decomp, countType_append, countType_cons, countType_cons,
      runChunks_countType rid mdl t0 times chunks 0 _ _ (Or.inl rfl),
      countType_singleton]
    simp only [type_startEvt, type_initApiEvt]
    by_cases h : (streamTerminalEvt rid mdl chunks tail t0 times).type =
        "stage_complete" <;> simp [h]

/-- C9: processing node `write_research_brief` with the direct mapping
payload containing `research_brief` yields exactly one event (the node
processor returns one event on every path), its stage is `RESEARCH_BRIEF`,
and its content contains the brief's value verbatim and untruncated. -/
theorem C9_research_brief_verbatim (rid mdl : String) (n : Nat) :
    (process_workflow_node "write_research_brief"
        (NodeData.dict [("research_brief", DVal.s "Focus on financials.")])
        rid mdl n).stage = some ResearchStage.RESEARCH_BRIEF ∧
    ∃ a, (process_workflow_node "write_research_brief"
        (NodeData.dict [("research_brief", DVal.s "Focus on financials.")])
        rid mdl n).content = a ++ "Focus on financials." := by
  constructor
  · rfl
  · refine ⟨litMemo ++ " Step " ++ toString n ++
      ": Creating comprehensive research brief and strategy" ++
      "\n\nGenerated Research Brief:\n", ?_⟩
    have hcontent : (process_workflow_node "write_research_brief"
        (NodeData.dict [("research_brief", DVal.s "Focus on financials.")])
        rid mdl n).content =
      generate_node_content "write_research_brief"
        (NodeData.dict [("research_brief", DVal.s "Focus on financials.")]) n := rfl
    rw [hcontent]
    unfold generate_node_content
    simp [String.append_assoc, dvalStr]

/-- C2 counterexample: a timeout path on which an event of type `error` IS
emitted.  The first chunk (arriving at 30s) carries a payload whose
processing raises, so the orchestrator yields a per-node `error` event; the
second chunk arrives at 1000s and triggers the timeout.  The run emits
exactly one `timeout_warning` and ends with `stage_complete` — it is a
timeout path in the claim's sense — yet it also contains one `error`-typed
event, refuting "no event of type error is emitted on this path". -/
theorem C2_counterexample :
    countType "timeout_warning"
      (stream_research "q" "m" "k" "r" "rm" "rp"
        [[("n1", NodeData.raising "boom")], []] EngineEnd.exhausted 0
        (fun i => if i == 0 then 30 else 1000)) = 1 ∧
    (stream_research "q" "m" "k" "r" "rm" "rp"
        [[("n1", NodeData.raising "boom")], []] EngineEnd.exhausted 0
        (fun i => if i == 0 then 30 else 1000)).getLast? =
      some (completeEvt "r" "m" 2) ∧
    countType "error"
      (stream_research "q" "m" "k" "r" "rm" "rp"
        [[("n1", NodeData.raising "boom")], []] EngineEnd.exhausted 0
        (fun i => if i == 0 then 30 else 1000)) = 1 :=
  ⟨rfl, rfl, rfl⟩

/-- C2 amended: on every run in which the timeout fires, the orchestrator
emits exactly one `timeout_warning` (none occur earlier), carrying
`metadata.chunks_completed` (the final chunk count) and
`metadata.elapsed_time` (which exceeds the 900-second ceiling), it stops
consuming further updates, and the only event after the warning is the
single terminal `stage_complete`; no `error` event is emitted from the
warning onward (though earlier per-node `error` events may exist, see C10). -/
theorem C2_amended_timeout_path (query mdl api_key rid rm rp : String)
    (chunks : List Chunk) (tail : EngineEnd) (t0 : Nat) (times : Nat → Nat)
    (hbk : (runChunks rid mdl t0 times 0
      { cnt := 0, lastHb := t0, stage := ResearchStage.INITIALIZATION,
        chunkStart := t0 } chunks).2.2 = true) :
    ∃ pre stg elap,
      stream_research query mdl api_key rid rm rp chunks tail t0 times =
        pre ++ [timeoutEvt stg rid mdl
            (runChunks rid mdl t0 times 0
              { cnt := 0, lastHb := t0, stage := ResearchStage.INITIALIZATION,
                chunkStart := t0 } chunks).2.1.cnt elap,
          completeEvt rid mdl
            (runChunks rid mdl t0 times 0
              { cnt := 0, lastHb := t0, stage := ResearchStage.INITIALIZATION,
                chunkStart := t0 } chunks).2.1.cnt] ∧
      elap > 900 ∧
      countType "timeout_warning" pre = 0 ∧
      countType "stage_complete" pre = 0 ∧
      metaLookup (timeoutEvt stg rid mdl
          (runChunks rid mdl t0 times 0
            { cnt := 0, lastHb := t0, stage := ResearchStage.INITIALIZATION,
              chunkStart := t0 } chunks).2.1.cnt elap) "chunks_completed" =
        some (MetaVal.n (runChunks rid mdl t0 times 0
          { cnt := 0, lastHb := t0, stage := ResearchStage.INITIALIZATION,
            chunkStart := t0 } chunks).2.1.cnt) ∧
      metaLookup (timeoutEvt stg rid mdl
          (runChunks rid mdl t0 times 0
            { cnt := 0, lastHb := t0, stage := ResearchStage.INITIALIZATION,
              chunkStart := t0 } chunks).2.1.cnt elap) "elapsed_time" =
        some (MetaVal.n elap) := by
  obtain ⟨pre0, stg, elap, heq, helap, hc1, hc2⟩ :=
    runChunks_timeout rid mdl t0 times chunks 0
      { cnt := 0, lastHb := t0, stage := ResearchStage.INITIALIZATION,
        chunkStart := t0 } hbk
  have hterm : streamTerminalEvt rid mdl chunks tail t0 times =
      completeEvt rid mdl (runChunks rid mdl t0 times 0
        { cnt := 0, lastHb := t0, stage := ResearchStage.INITIALIZATION,
          chunkStart := t0 } chunks).2.1.cnt := by
    unfold streamTerminalEvt
    simp [hbk]
  refine ⟨startEvt query rid mdl rm rp t0 :: initApiEvt rid mdl rm rp :: pre0,
    stg, elap, ?_, helap, ?_, ?_, rfl, rfl⟩
  · rw [stream_research_decomp, hterm, heq]
    simp
  · rw [countType_cons, countType_cons, hc1]
    simp
  · rw [countType_cons, countType_cons, hc2]
    simp

/-- C2 amended witness: a single empty chunk arriving at 1000s triggers the
timeout. -/
theorem C2_amended_timeout_path_witness :
    ∃ pre stg elap,
      stream_research "q" "m" "k" "r" "rm" "rp" [[]] EngineEnd.exhausted 0
          (fun _ => 1000) =
        pre ++ [timeoutEvt stg "r" "m" 1 elap, completeEvt "r" "m" 1] ∧
      elap > 900 ∧
      countType "timeout_warning" pre = 0 ∧
      countType "stage_complete" pre = 0 ∧
      metaLookup (timeoutEvt stg "r" "m" 1 elap) "chunks_completed" =
        some (MetaVal.n 1) ∧
      metaLookup (timeoutEvt stg "r" "m" 1 elap) "elapsed_time" =
        some (MetaVal.n elap) :=
  C2_amended_timeout_path "q" "m" "k" "r" "rm" "rp" [[]] EngineEnd.exhausted 0
    (fun _ => 1000) rfl

/-- C3: when the engine's iterator raises after its M updates were consumed
(so no timeout break occurred first — with a timeout the orchestrator stops
pulling and the raise is never observed), the run is the initial events and
the M updates' derived events followed by exactly one terminal `error`
event carrying the exception's message, and no `stage_complete` is ever
emitted. -/
theorem C3_engine_raise (query mdl api_key rid rm rp m : String)
    (chunks : List Chunk) (t0 : Nat) (times : Nat → Nat)
    (hnt : ∀ k, k < chunks.length → times k - t0 ≤ 900) :
    stream_research query mdl api_key rid rm rp chunks
        (EngineEnd.engineRaise m) t0 times =
      (startEvt query rid mdl rm rp t0 :: initApiEvt rid mdl rm rp ::
        (runChunks rid mdl t0 times 0
          { cnt := 0, lastHb := t0, stage := ResearchStage.INITIALIZATION,
            chunkStart := t0 } chunks).1) ++
        [errorEvt (runChunks rid mdl t0 times 0
            { cnt := 0, lastHb := t0, stage := ResearchStage.INITIALIZATION,
              chunkStart := t0 } chunks).2.1.stage rid mdl m] ∧
    (errorEvt (runChunks rid mdl t0 times 0
        { cnt := 0, lastHb := t0, stage := ResearchStage.INITIALIZATION,
          chunkStart := t0 } chunks).2.1.stage rid mdl m).type = "error" ∧
    (errorEvt (runChunks rid mdl t0 times 0
        { cnt := 0, lastHb := t0, stage := ResearchStage.INITIALIZATION,
          chunkStart := t0 } chunks).2.1.stage rid mdl m).error = some m ∧
    countType "stage_complete"
      (stream_research query mdl api_key rid rm rp chunks
        (EngineEnd.engineRaise m) t0 times) = 0 ∧
    (stream_research query mdl api_key rid rm rp chunks
        (EngineEnd.engineRaise m) t0 times).getLast? =
      some (errorEvt (runChunks rid mdl t0 times 0
          { cnt := 0, lastHb := t0, stage := ResearchStage.INITIALIZATION,
            chunkStart := t0 } chunks).2.1.stage rid mdl m) := by
  have hbroke : (runChunks rid mdl t0 times 0
      { cnt := 0, lastHb := t0, stage := ResearchStage.INITIALIZATION,
        chunkStart := t0 } chunks).2.2 = false :=
    runChunks_noTimeout rid mdl t0 times chunks 0 _
      (fun k hk => by simpa using hnt k hk)
  have hterm : streamTerminalEvt rid mdl chunks (EngineEnd.engineRaise m) t0 times =
      errorEvt (runChunks rid mdl t0 times 0
        { cnt := 0, lastHb := t0, stage := ResearchStage.INITIALIZATION,
          chunkStart := t0 } chunks).2.1.stage rid mdl m := by
    unfold streamTerminalEvt
    simp [hbroke]
  refine ⟨?_, rfl, rfl, ?_, ?_⟩
  · rw [stream_research_decomp, hterm]
  · rw [stream_research_decomp, hterm, countType_append, countType_cons,
      countType_cons,
      runChunks_countType rid mdl t0 times chunks 0 _ _ (Or.inl rfl),
      countType_singleton]
    simp
  · rw [stream_research_decomp, hterm]
    exact List.getLast?_concat _

/-- C3 witness: the engine raises before delivering any update (M = 0). -/
theorem C3_engine_raise_witness :
    stream_research "q" "m" "k" "r" "rm" "rp" []
        (EngineEnd.engineRaise "boom") 0 (fun _ => 0) =
      (startEvt "q" "r" "m" "rm" "rp" 0 :: initApiEvt "r" "m" "rm" "rp" ::
        (runChunks "r" "m" 0 (fun _ => 0) 0
          { cnt := 0, lastHb := 0, stage := ResearchStage.INITIALIZATION,
            chunkStart := 0 } []).1) ++
        [errorEvt (runChunks "r" "m" 0 (fun _ => 0) 0
            { cnt := 0, lastHb := 0, stage := ResearchStage.INITIALIZATION,
              chunkStart := 0 } []).2.1.stage "r" "m" "boom"] ∧
    (errorEvt (runChunks "r" "m" 0 (fun _ => 0) 0
        { cnt := 0, lastHb := 0, stage := ResearchStage.INITIALIZATION,
          chunkStart := 0 } []).2.1.stage "r" "m" "boom").type = "error" ∧
    (errorEvt (runChunks "r" "m" 0 (fun _ => 0) 0
        { cnt := 0, lastHb := 0, stage := ResearchStage.INITIALIZATION,
          chunkStart := 0 } []).2.1.stage "r" "m" "boom").error = some "boom" ∧
    countType "stage_complete"
      (stream_research "q" "m" "k" "r" "rm" "rp" []
        (EngineEnd.engineRaise "boom") 0 (fun _ => 0)) = 0 ∧
    (stream_research "q" "m" "k" "r" "rm" "rp" []
        (EngineEnd.engineRaise "boom") 0 (fun _ => 0)).getLast? =
      some (errorEvt (runChunks "r" "m" 0 (fun _ => 0) 0
          { cnt := 0, lastHb := 0, stage := ResearchStage.INITIALIZATION,
            chunkStart := 0 } []).2.1.stage "r" "m" "boom") :=
  C3_engine_raise "q" "m" "k" "r" "rm" "rp" "boom" [] 0 (fun _ => 0)
    (fun k hk => by simp at hk)

/-- C4: a run over N updates ending in normal exhaustion without timeout
emits the initial `stage_start` first and the terminal `stage_complete`
last, each exactly once, and the events in between are the concatenation of
one block per engine update in the order the updates were received
(`chunkBlocks` groups the loop's output per consumed update; its flattening
equals the emitted sequence, which is the no-reordering property). -/
theorem C4_normal_exhaustion (query mdl api_key rid rm rp : String)
    (chunks : List Chunk) (t0 : Nat) (times : Nat → Nat)
    (hnt : ∀ k, k < chunks.length → times k - t0 ≤ 900) :
    stream_research query mdl api_key rid rm rp chunks
        EngineEnd.exhausted t0 times =
      (startEvt query rid mdl rm rp t0 :: initApiEvt rid mdl rm rp ::
        (chunkBlocks rid mdl t0 times 0
          { cnt := 0, lastHb := t0, stage := ResearchStage.INITIALIZATION,
            chunkStart := t0 } chunks).flatten) ++
        [completeEvt rid mdl (runChunks rid mdl t0 times 0
          { cnt := 0, lastHb := t0, stage := ResearchStage.INITIALIZATION,
            chunkStart := t0 } chunks).2.1.cnt] ∧
    (chunkBlocks rid mdl t0 times 0
        { cnt := 0, lastHb := t0, stage := ResearchStage.INITIALIZATION,
          chunkStart := t0 } chunks).length = chunks.length ∧
    (stream_research query mdl api_key rid rm rp chunks
        EngineEnd.exhausted t0 times).head? =
      some (startEvt query rid mdl rm rp t0) ∧
    countType "stage_start"
      (stream_research query mdl api_key rid rm rp chunks
        EngineEnd.exhausted t0 times) = 1 ∧
    (stream_research query mdl api_key rid rm rp chunks
        EngineEnd.exhausted t0 times).getLast? =
      some (completeEvt rid mdl (runChunks rid mdl t0 times 0
          { cnt := 0, lastHb := t0, stage := ResearchStage.INITIALIZATION,
            chunkStart := t0 } chunks).2.1.cnt) ∧
    countType "stage_complete"
      (stream_research query mdl api_key rid rm rp chunks
        EngineEnd.exhausted t0 times) = 1 := by
  have hbroke : (runChunks rid mdl t0 times 0
      { cnt := 0, lastHb := t0, stage := ResearchStage.INITIALIZATION,
        chunkStart := t0 } chunks).2.2 = false :=
    runChunks_noTimeout rid mdl t0 times chunks 0 _
      (fun k hk => by simpa using hnt k hk)
  have hterm : streamTerminalEvt rid mdl chunks EngineEnd.exhausted t0 times =
      completeEvt rid mdl (runChunks rid mdl t0 times 0
        { cnt := 0, lastHb := t0, stage := ResearchStage.INITIALIZATION,
          chunkStart := t0 } chunks).2.1.cnt := by
    unfold streamTerminalEvt
    simp [hbroke]
  refine ⟨?_, ?_, ?_, ?_, ?_, ?_⟩
  · rw [stream_research_decomp, hterm, runChunks_eq_flatten]
  · exact chunkBlocks_length rid mdl t0 times chunks 0 _
      (fun k hk => by simpa using hnt k hk)
  · rw [stream_research_decomp]
    rfl
  · rw [stream_research_decomp, hterm, countType_append, countType_cons,
      countType_cons,
      runChunks_countType rid mdl t0 times chunks 0 _ _ (Or.inr rfl),
      countType_singleton]
    simp
  · rw [stream_research_decomp, hterm]
    exact List.getLast?_concat _
  · rw [stream_research_decomp, hterm, countType_append, countType_cons,
      countType_cons,
      runChunks_countType rid mdl t0 times chunks 0 _ _ (Or.inl rfl),
      countType_singleton]
    simp

/-- C4 witness: one update carrying one node, delivered at 1s. -/
theorem C4_normal_exhaustion_witness :
    stream_research "q" "m" "k" "r" "rm" "rp"
        [[("write_research_brief",
           NodeData.dict [("research_brief", DVal.s "Focus on financials.")])]]
        EngineEnd.exhausted 0 (fun _ => 1) =
      (startEvt "q" "r" "m" "rm" "rp" 0 :: initApiEvt "r" "m" "rm" "rp" ::
        (chunkBlocks "r" "m" 0 (fun _ => 1) 0
          { cnt := 0, lastHb := 0, stage := ResearchStage.INITIALIZATION,
            chunkStart := 0 }
          [[("write_research_brief",
             NodeData.dict [("research_brief", DVal.s "Focus on financials.")])]]).flatten) ++
        [completeEvt "r" "m" (runChunks "r" "m" 0 (fun _ => 1) 0
          { cnt := 0, lastHb := 0, stage := ResearchStage.INITIALIZATION,
            chunkStart := 0 }
          [[("write_research_brief",
             NodeData.dict [("research_brief", DVal.s "Focus on financials.")])]]).2.1.cnt] ∧
    (chunkBlocks "r" "m" 0 (fun _ => 1) 0
        { cnt := 0, lastHb := 0, stage := ResearchStage.INITIALIZATION,
          chunkStart := 0 }
        [[("write_research_brief",
           NodeData.dict [("research_brief", DVal.s "Focus on financials.")])]]).length =
      ([[("write_research_brief",
          NodeData.dict [("research_brief", DVal.s "Focus on financials.")])]] :
        List Chunk).length ∧
    (stream_research "q" "m" "k" "r" "rm" "rp"
        [[("write_research_brief",
           NodeData.dict [("research_brief", DVal.s "Focus on financials.")])]]
        EngineEnd.exhausted 0 (fun _ => 1)).head? =
      some (startEvt "q" "r" "m" "rm" "rp" 0) ∧
    countType "stage_start"
      (stream_research "q" "m" "k" "r" "rm" "rp"
        [[("write_research_brief",
           NodeData.dict [("research_brief", DVal.s "Focus on financials.")])]]
        EngineEnd.exhausted 0 (fun _ => 1)) = 1 ∧
    (stream_research "q" "m" "k" "r" "rm" "rp"
        [[("write_research_brief",
           NodeData.dict [("research_brief", DVal.s "Focus on financials.")])]]
        EngineEnd.exhausted 0 (fun _ => 1)).getLast? =
      some (completeEvt "r" "m" (runChunks "r" "m" 0 (fun _ => 1) 0
          { cnt := 0, lastHb := 0, stage := ResearchStage.INITIALIZATION,
            chunkStart := 0 }
          [[("write_research_brief",
             NodeData.dict [("research_brief", DVal.s "Focus on financials.")])]]).2.1.cnt) ∧
    countType "stage_complete"
      (stream_research "q" "m" "k" "r" "rm" "rp"
        [[("write_research_brief",
           NodeData.dict [("research_brief", DVal.s "Focus on financials.")])]]
        EngineEnd.exhausted 0 (fun _ => 1)) = 1 :=
  C4_normal_exhaustion "q" "m" "k" "r" "rm" "rp"
    [[("write_research_brief",
       NodeData.dict [("research_brief", DVal.s "Focus on financials.")])]]
    0 (fun _ => 1) (fun k _ => by simp)

/-- C5: every event of one `stream_research` call — initial, monitoring,
heartbeat, timeout, node-derived, auxiliary, supervisor sub-events and
terminal — carries the session's `research_id` and `model` arguments
unchanged. -/
theorem C5_session_identity (query mdl api_key rid rm rp : String)
    (chunks : List Chunk) (tail : EngineEnd) (t0 : Nat) (times : Nat → Nat) :
    ∀ e ∈ stream_research query mdl api_key rid rm rp chunks tail t0 times,
      e.research_id = rid ∧ e.model = mdl := by
  intro e he
  rw [stream_research_decomp] at he
  rcases List.mem_append.mp he with he | he
  · rcases List.mem_cons.mp he with he | he
    · subst he; exact ⟨rfl, rfl⟩
    · rcases List.mem_cons.mp he with he | he
      · subst he; exact ⟨rfl, rfl⟩
      · obtain ⟨_, h2, h3⟩ := runChunks_spec rid mdl t0 times chunks 0 _ e he
        exact ⟨h2, h3⟩
  · rcases List.mem_singleton.mp he
    unfold streamTerminalEvt
    cases tail <;>
      by_cases hbk : (runChunks rid mdl t0 times 0
        { cnt := 0, lastHb := t0, stage := ResearchStage.INITIALIZATION,
          chunkStart := t0 } chunks).2.2 <;>
      simp [hbk] <;> exact ⟨rfl, rfl⟩

/-- C5 witness: the initial event of a concrete session carries its
`research_id` and `model`. -/
theorem C5_session_identity_witness :
    (startEvt "q" "r" "m" "rm" "rp" 0).research_id = "r" ∧
    (startEvt "q" "r" "m" "rm" "rp" 0).model = "m" :=
  C5_session_identity "q" "m" "k" "r" "rm" "rp" [] EngineEnd.exhausted 0
    (fun _ => 0) (startEvt "q" "r" "m" "rm" "rp" 0)
    (List.mem_append_left _ (List.mem_cons_self _ _))

/-- C6 counterexample: the text `CrawlLog JSON: [[1],[2]]` is the header
followed by a bracketed array literal that parses as a JSON array, so the
claim requires `crawl_log = [[1],[2]]`; but the source's lazy group
`\[[\s\S]*?\]` stops at the FIRST `]`, extracting the malformed span
`[[1]`, so the function returns the empty array instead. -/
theorem C6_counterexample :
    "CrawlLog JSON: [[1],[2]]" = "CrawlLog JSON: " ++ "[[1],[2]]" ∧
    jsonLoads "[[1],[2]]" =
      some (Json.arr [Json.arr [Json.num "1"], Json.arr [Json.num "2"]]) ∧
    (extract_json_blocks "CrawlLog JSON: [[1],[2]]").crawl_log = [] ∧
    (extract_json_blocks "CrawlLog JSON: [[1],[2]]").crawl_log ≠
      [Json.arr [Json.num "1"], Json.arr [Json.num "2"]] :=
  ⟨rfl, rfl, rfl, by
    intro h
    rw [show (extract_json_blocks "CrawlLog JSON: [[1],[2]]").crawl_log = []
      from rfl] at h
    exact List.noConfusion h⟩

/-- C6 amended: when the source's regex search finds a bracketed group
after the `CrawlLog JSON` header (the lazy group ends at the first `]`),
`crawl_log` is the parsed array if the group parses as a JSON array and
`[]` if it fails to parse or parses as a non-array; the other four keys are
each computed by their own independent extraction, unaffected by the
crawl-log outcome; the function is total (never raises). -/
theorem C6_amended (text : String) (raw : List Char)
    (h : findHeaderArray "CrawlLog JSON".data text.data = some raw) :
    (∀ l, jsonLoads ⟨raw⟩ = some (Json.arr l) →
      (extract_json_blocks text).crawl_log = l) ∧
    (jsonLoads ⟨raw⟩ = none → (extract_json_blocks text).crawl_log = []) ∧
    (∀ v, jsonLoads ⟨raw⟩ = some v → (∀ l, v ≠ Json.arr l) →
      (extract_json_blocks text).crawl_log = []) ∧
    (extract_json_blocks text).first_party_pages =
      extractKey "FirstPartyPages JSON" text ∧
    (extract_json_blocks text).search_queries =
      extractKey "SearchQueries JSON" text ∧
    (extract_json_blocks text).social_profiles =
      extractKey "SocialProfiles JSON" text ∧
    (extract_json_blocks text).ecommerce_listings =
      extractKey "EcommerceListings JSON" text := by
  refine ⟨?_, ?_, ?_, rfl, rfl, rfl, rfl⟩
  · intro l hl
    show extractKey "CrawlLog JSON" text = l
    unfold extractKey
    rw [h]
    dsimp only
    rw [hl]
  · intro h0
    show extractKey "CrawlLog JSON" text = []
    unfold extractKey
    rw [h]
    dsimp only
    rw [h0]
  · intro v hv hne
    show extractKey "CrawlLog JSON" text = []
    unfold extractKey
    rw [h]
    dsimp only
    rw [hv]
    cases v <;> first | rfl | exact absurd rfl (hne _)

/-- C6 amended witness: a well-formed flat block. -/
theorem C6_amended_witness :
    findHeaderArray "CrawlLog JSON".data "ok CrawlLog JSON: [1] done".data =
      some "[1]".data ∧
    (extract_json_blocks "ok CrawlLog JSON: [1] done").crawl_log =
      [Json.num "1"] :=
  ⟨rfl, (C6_amended "ok CrawlLog JSON: [1] done" "[1]".data rfl).1
    [Json.num "1"] rfl⟩

/-- C7 counterexample: a content whose `FirstPartyPages JSON` block is
non-empty produces NO auxiliary event at all — the orchestrator never emits
an `api_call` for the `first_party_pages` key, refuting "one auxiliary
api_call per nonempty block among the five keys". -/
theorem C7_counterexample :
    (extract_json_blocks "FirstPartyPages JSON: [1]").first_party_pages =
      [Json.num "1"] ∧
    auxEvents ResearchStage.RESEARCH_EXECUTION "r" "m"
      "FirstPartyPages JSON: [1]" "n1" = [] :=
  ⟨rfl, rfl⟩

/-- C7 amended: after each node-derived event the orchestrator synthesizes
one auxiliary `api_call` per nonempty block among FOUR of the five keys —
`crawl_log`, `search_queries`, `social_profiles`, `ecommerce_listings`,
each carrying the block under the corresponding metadata key — never one
for `first_party_pages`; and one `sources_found` event carrying
`metadata.sources` when source citations are present in the content. -/
theorem C7_amended (stage : ResearchStage) (rid mdl content name : String) :
    countType "api_call" (auxEvents stage rid mdl content name) =
      ((if (extract_json_blocks content).crawl_log.isEmpty then 0 else 1) +
       (if (extract_json_blocks content).search_queries.isEmpty then 0 else 1) +
       (if (extract_json_blocks content).social_profiles.isEmpty then 0 else 1) +
       (if (extract_json_blocks content).ecommerce_listings.isEmpty then 0 else 1)) ∧
    countType "sources_found" (auxEvents stage rid mdl content name) =
      (if (extract_sources_from_text content).isEmpty then 0 else 1) ∧
    (∀ e ∈ auxEvents stage rid mdl content name,
      metaLookup e "first_party_pages" = none) ∧
    (¬ (extract_json_blocks content).crawl_log.isEmpty →
      ∃ e ∈ auxEvents stage rid mdl content name, e.type = "api_call" ∧
        metaLookup e "crawl_log" =
          some (MetaVal.jarr (extract_json_blocks content).crawl_log)) ∧
    (¬ (extract_json_blocks content).search_queries.isEmpty →
      ∃ e ∈ auxEvents stage rid mdl content name, e.type = "api_call" ∧
        metaLookup e "search_queries" =
          some (MetaVal.jarr (extract_json_blocks content).search_queries)) ∧
    (¬ (extract_json_blocks content).social_profiles.isEmpty →
      ∃ e ∈ auxEvents stage rid mdl content name, e.type = "api_call" ∧
        metaLookup e "social_profiles" =
          some (MetaVal.jarr (extract_json_blocks content).social_profiles)) ∧
    (¬ (extract_json_blocks content).ecommerce_listings.isEmpty →
      ∃ e ∈ auxEvents stage rid mdl content name, e.type = "api_call" ∧
        metaLookup e "ecommerce_listings" =
          some (MetaVal.jarr (extract_json_blocks content).ecommerce_listings)) ∧
    (¬ (extract_sources_from_text content).isEmpty →
      ∃ e ∈ auxEvents stage rid mdl content name, e.type = "sources_found" ∧
        metaLookup e "sources" =
          some (MetaVal.slist (extract_sources_from_text content))) := by
  refine ⟨?_, ?_, ?_, ?_, ?_, ?_, ?_, ?_⟩
  · cases h1 : (extract_json_blocks content).crawl_log.isEmpty <;>
    cases h2 : (extract_json_blocks content).search_queries.isEmpty <;>
    cases h3 : (extract_json_blocks content).social_profiles.isEmpty <;>
    cases h4 : (extract_json_blocks content).ecommerce_listings.isEmpty <;>
    cases h5 : extract_sources_from_text content <;>
      simp [auxEvents, countType_append, countType_cons, countType_singleton,
        countType_ite_singleton, countType_nil, mkEvent, h1, h2, h3, h4, h5]
  · cases h1 : (extract_json_blocks content).crawl_log.isEmpty <;>
    cases h2 : (extract_json_blocks content).search_queries.isEmpty <;>
    cases h3 : (extract_json_blocks content).social_profiles.isEmpty <;>
    cases h4 : (extract_json_blocks content).ecommerce_listings.isEmpty <;>
    cases h5 : extract_sources_from_text content <;>
      simp [auxEvents, countType_append, countType_cons, countType_singleton,
        countType_ite_singleton, countType_nil, mkEvent, h1, h2, h3, h4, h5]
  · intro e he
    simp only [auxEvents, List.mem_append] at he
    rcases he with (((h | h) | h) | h) | h <;>
      (rcases mem_ite_cons_nil h; rfl)
  · intro hne
    have hne2 : (extract_json_blocks content).crawl_log.isEmpty = false := by
      simpa using hne
    refine ⟨mkEvent "api_call" (some stage)
        ("Captured CrawlLog JSON with " ++
          toString (extract_json_blocks content).crawl_log.length ++ " entries")
        rid mdl
        (some [("crawl_log", MetaVal.jarr (extract_json_blocks content).crawl_log)])
        none, ?_, rfl, rfl⟩
    refine List.mem_append_left _ (List.mem_append_left _
      (List.mem_append_left _ (List.mem_append_left _ ?_)))
    simp [hne2]
  · intro hne
    have hne2 : (extract_json_blocks content).search_queries.isEmpty = false := by
      simpa using hne
    refine ⟨mkEvent "api_call" (some stage)
        ("Captured SearchQueries JSON with " ++
          toString (extract_json_blocks content).search_queries.length ++ " queries")
        rid mdl
        (some [("search_queries",
          MetaVal.jarr (extract_json_blocks content).search_queries)])
        none, ?_, rfl, rfl⟩
    refine List.mem_append_left _ (List.mem_append_left _
      (List.mem_append_left _ (List.mem_append_right _ ?_)))
    simp [hne2]
  · intro hne
    have hne2 : (extract_json_blocks content).social_profiles.isEmpty = false := by
      simpa using hne
    refine ⟨mkEvent "api_call" (some stage)
        ("Captured SocialProfiles JSON with " ++
          toString (extract_json_blocks content).social_profiles.length ++ " profiles")
        rid mdl
        (some [("social_profiles",
          MetaVal.jarr (extract_json_blocks content).social_profiles)])
        none, ?_, rfl, rfl⟩
    refine List.mem_append_left _ (List.mem_append_left _
      (List.mem_append_right _ ?_))
    simp [hne2]
  · intro hne
    have hne2 : (extract_json_blocks content).ecommerce_listings.isEmpty = false := by
      simpa using hne
    refine ⟨mkEvent "api_call" (some stage)
        ("Captured EcommerceListings JSON with " ++
          toString (extract_json_blocks content).ecommerce_listings.length ++ " listings")
        rid mdl
        (some [("ecommerce_listings",
          MetaVal.jarr (extract_json_blocks content).ecommerce_listings)])
        none, ?_, rfl, rfl⟩
    refine List.mem_append_left _ (List.mem_append_right _ ?_)
    simp [hne2]
  · intro hne
    have hne2 : (extract_sources_from_text content).isEmpty = false := by
      simpa using hne
    refine ⟨mkEvent "sources_found" (some stage)
        (litClip ++ " Found " ++
          toString (extract_sources_from_text content).length ++ " sources")
        rid mdl
        (some [("sources", MetaVal.slist (extract_sources_from_text content)),
               ("node_name", MetaVal.s name)])
        none, ?_, rfl, rfl⟩
    refine List.mem_append_right _ ?_
    simp [hne2]

/-- C7 amended witness. -/
theorem C7_amended_witness :
    ¬ (extract_json_blocks "CrawlLog JSON: [1]").crawl_log.isEmpty ∧
    ∃ e ∈ auxEvents ResearchStage.RESEARCH_EXECUTION "r" "m"
        "CrawlLog JSON: [1]" "n1", e.type = "api_call" ∧
      metaLookup e "crawl_log" =
        some (MetaVal.jarr (extract_json_blocks "CrawlLog JSON: [1]").crawl_log) :=
  ⟨by decide,
   (C7_amended ResearchStage.RESEARCH_EXECUTION "r" "m" "CrawlLog JSON: [1]"
      "n1").2.2.2.1 (by decide)⟩

/-- Bound on the recurring truncation idiom. -/
theorem pyTrunc_length_le (n : Nat) (s : String) :
    (pyTrunc n s).length ≤ n + 3 := by
  unfold pyTrunc pyTake
  split
  · rw [String.length_append]
    have h1 : (String.mk (s.data.take n)).length = (s.data.take n).length := rfl
    rw [h1, List.length_take]
    have : ("..." : String).length = 3 := rfl
    omega
  · omega

theorem mem_aiMsgContents (ms : List Msg) (s : String)
    (h : s ∈ aiMsgContents ms) : ∃ c, s = pyTrunc 500 c := by
  simp only [aiMsgContents, List.mem_filterMap] at h
  obtain ⟨m, _, hm⟩ := h
  rcases hc : m.content with _ | c
  · rw [hc] at hm
    exact Option.noConfusion hm
  · rw [hc] at hm
    dsimp only [Option.bind] at hm
    split at hm
    · exact ⟨c, (Option.some.injEq .. ▸ hm).symm⟩
    · exact Option.noConfusion hm

theorem mem_aiFirstAttr (o : ObjData) (s : String)
    (h : s ∈ aiFirstAttr o) : ∃ c, s = pyTrunc 500 c := by
  unfold aiFirstAttr at h
  rw [Option.mem_toList] at h
  have hv : s ∈ [o.content, o.response, o.output, o.result, o.text].filterMap
      (fun a => a.bind fun w =>
        if w.length > 20 then some (pyTrunc 500 w) else none) :=
    List.mem_of_mem_head? h
  simp only [List.mem_filterMap] at hv
  obtain ⟨a, _, ha⟩ := hv
  rcases hc : a with _ | c
  · rw [hc] at ha
    exact Option.noConfusion ha
  · rw [hc] at ha
    dsimp only [Option.bind] at ha
    split at ha
    · exact ⟨c, (Option.some.injEq .. ▸ ha).symm⟩
    · exact Option.noConfusion ha

/-- C8 counterexample: a payload that HAS a conversational-turn list (one
qualifying turn) and also a qualifying `content` attribute.  The claim says
the attribute scan is used only as a fallback when no conversational list
is present, so the result should be the single turn; the code appends the
attribute value as well. -/
theorem C8_counterexample :
    (({ messages := some [{ content := some "aaaaaaaaaaaaaaaaaaaaa" }],
        content := some "bbbbbbbbbbbbbbbbbbbbb" } : ObjData)).messages.isSome =
      true ∧
    extract_ai_messages (NodeData.obj
      { messages := some [{ content := some "aaaaaaaaaaaaaaaaaaaaa" }],
        content := some "bbbbbbbbbbbbbbbbbbbbb" }) =
      ["aaaaaaaaaaaaaaaaaaaaa", "bbbbbbbbbbbbbbbbbbbbb"] :=
  ⟨rfl, by decide⟩

/-- C8 amended: `extract_ai_messages` returns at most 5 strings, each at
most 503 characters (500 plus the ellipsis marker); the conversational pass
keeps turns longer than 20 characters not starting with the human marker
and the attribute pass keeps the first qualifying candidate attribute; the
attribute pass runs UNCONDITIONALLY — its hit is appended after the
turn-derived entries even when a conversational list is present — and is
the whole result only when the list is absent or empty. -/
theorem C8_amended_extract_ai_messages :
    (∀ d, (extract_ai_messages d).length ≤ 5) ∧
    (∀ d, ∀ s ∈ extract_ai_messages d, s.length ≤ 503) ∧
    (∀ o : ObjData, o.messages = none →
      extract_ai_messages (NodeData.obj o) = (aiFirstAttr o).take 5) ∧
    (∀ o : ObjData, ∀ ms, o.messages = some ms →
      extract_ai_messages (NodeData.obj o) =
        ((if ms.isEmpty then [] else aiMsgContents ms) ++ aiFirstAttr o).take 5) := by
  refine ⟨?_, ?_, ?_, ?_⟩
  · intro d
    cases d <;> simp [extract_ai_messages, List.length_take]
  · intro d s hs
    cases d with
    | pynone => simp [extract_ai_messages] at hs
    | dict entries => simp [extract_ai_messages] at hs
    | raising m => simp [extract_ai_messages] at hs
    | obj o =>
      simp only [extract_ai_messages] at hs
      have hs2 := List.take_subset 5 _ hs
      rcases List.mem_append.mp hs2 with h | h
      · rcases ho : o.messages with _ | ms
        · rw [ho] at h
          simp at h
        · rw [ho] at h
          dsimp only at h
          split at h
          · simp at h
          · obtain ⟨c, hc⟩ := mem_aiMsgContents ms s h
            rw [hc]; exact pyTrunc_length_le 500 c
      · obtain ⟨c, hc⟩ := mem_aiFirstAttr o s h
        rw [hc]; exact pyTrunc_length_le 500 c
  · intro o h
    simp [extract_ai_messages, h]
  · intro o ms h
    simp [extract_ai_messages, h]

/-- C8 amended witness. -/
theorem C8_amended_witness :
    (extract_ai_messages NodeData.pynone).length ≤ 5 ∧
    extract_ai_messages (NodeData.obj
        { content := some "cccccccccccccccccccccccc" }) =
      (aiFirstAttr { content := some "cccccccccccccccccccccccc" }).take 5 :=
  ⟨C8_amended_extract_ai_messages.1 NodeData.pynone,
   C8_amended_extract_ai_messages.2.2.1 _ rfl⟩

/-- C10: an `error`-typed event is not necessarily terminal.  When one node
of one chunk carries a payload whose processing raises, the orchestrator
yields a mid-stream `error` event with `stage = ERROR` and the `error`
field set, keeps consuming the remaining updates, and on normal exhaustion
still ends with the terminal `stage_complete` (so the error event is
followed by further events). -/
theorem C10_error_event_not_terminal
    (query mdl api_key rid rm rp name msg : String)
    (chunks : List Chunk) (ch : Chunk) (t0 : Nat) (times : Nat → Nat)
    (hnt : ∀ k, k < chunks.length → times k - t0 ≤ 900)
    (hch : ch ∈ chunks) (hmem : (name, NodeData.raising msg) ∈ ch) :
    raisingNodeErrorEvt name msg rid mdl ∈
      stream_research query mdl api_key rid rm rp chunks
        EngineEnd.exhausted t0 times ∧
    (raisingNodeErrorEvt name msg rid mdl).type = "error" ∧
    (raisingNodeErrorEvt name msg rid mdl).stage = some ResearchStage.ERROR ∧
    (raisingNodeErrorEvt name msg rid mdl).error = some msg ∧
    (stream_research query mdl api_key rid rm rp chunks
        EngineEnd.exhausted t0 times).getLast? =
      some (completeEvt rid mdl (runChunks rid mdl t0 times 0
          { cnt := 0, lastHb := t0, stage := ResearchStage.INITIALIZATION,
            chunkStart := t0 } chunks).2.1.cnt) := by
  have hbroke : (runChunks rid mdl t0 times 0
      { cnt := 0, lastHb := t0, stage := ResearchStage.INITIALIZATION,
        chunkStart := t0 } chunks).2.2 = false :=
    runChunks_noTimeout rid mdl t0 times chunks 0 _
      (fun k hk => by simpa using hnt k hk)
  have hterm : streamTerminalEvt rid mdl chunks EngineEnd.exhausted t0 times =
      completeEvt rid mdl (runChunks rid mdl t0 times 0
        { cnt := 0, lastHb := t0, stage := ResearchStage.INITIALIZATION,
          chunkStart := t0 } chunks).2.1.cnt := by
    unfold streamTerminalEvt
    simp [hbroke]
  refine ⟨?_, rfl, rfl, rfl, ?_⟩
  · rw [stream_research_decomp]
    exact List.mem_append_left _ (List.mem_cons_of_mem _
      (List.mem_cons_of_mem _
        (runChunks_raising_mem rid mdl t0 times name msg chunks 0 _ ch
          (fun k hk => by simpa using hnt k hk) hch hmem)))
  · rw [stream_research_decomp, hterm]
    exact List.getLast?_concat _

/-- C10 witness: a single chunk whose only node raises; the run still ends
with `stage_complete`. -/
theorem C10_error_event_not_terminal_witness :
    raisingNodeErrorEvt "n1" "boom" "r" "m" ∈
      stream_research "q" "m" "k" "r" "rm" "rp"
        [[("n1", NodeData.raising "boom")]] EngineEnd.exhausted 0
        (fun _ => 1) ∧
    (raisingNodeErrorEvt "n1" "boom" "r" "m").type = "error" ∧
    (raisingNodeErrorEvt "n1" "boom" "r" "m").stage =
      some ResearchStage.ERROR ∧
    (raisingNodeErrorEvt "n1" "boom" "r" "m").error = some "boom" ∧
    (stream_research "q" "m" "k" "r" "rm" "rp"
        [[("n1", NodeData.raising "boom")]] EngineEnd.exhausted 0
        (fun _ => 1)).getLast? =
      some (completeEvt "r" "m" (runChunks "r" "m" 0 (fun _ => 1) 0
          { cnt := 0, lastHb := 0, stage := ResearchStage.INITIALIZATION,
            chunkStart := 0 } [[("n1", NodeData.raising "boom")]]).2.1.cnt) :=
  C10_error_event_not_terminal "q" "m" "k" "r" "rm" "rp" "n1" "boom"
    [[("n1", NodeData.raising "boom")]] [("n1", NodeData.raising "boom")] 0
    (fun _ => 1) (fun k _ => by simp) (List.mem_cons_self _ _)
    (List.mem_cons_self _ _)

end DeepResearch
